import Mathlib

/-!
Shallow embedding of the Pioneer DDJ-400 4-deck Mixxx mapping script
(src/Pioneer-DDJ-400-quirx-4D-script.js) and proofs about its channel
rebinding, subscription management, indicator, debouncer and scaling logic.

Modelling conventions (the source is a single-threaded event-handler script
driving an external engine):
* The engine is an immutable assignment `Engine.val group control : Nat`
  of current values, plus `num_decks` (the source reads
  `engine.getValue('[Master]', 'num_decks')`).  Each handler invocation may
  see a different engine, so reachability steps quantify over engines.
* Engine-facing calls are recorded as events (`Ev`): `makeConnection`,
  `connection.disconnect`, `connection.trigger`, `beginTimer`, `stopTimer`,
  `softTakeoverIgnoreNextValue`, `setValue`, `script.toggleControl`; the
  update of `state.channel_mapping` is recorded as `Ev.setMap`.
* Every output handler in the source deterministically drives its MIDI
  lights from the delivered value and the channel derived from its group;
  the model records that surface in `State.indicators` (last value delivered
  per channel and connection key) instead of raw MIDI bytes.
* Timer callbacks never run inside a handler (cooperative timers), so the
  model never fires them; armed engine-side timers are tracked in
  `State.active_timers`, tagged with the channel whose handler armed them.
* JS objects used as string-keyed maps (`state.timers[channel]`,
  `state.connections[channel]`) are association lists; assigning
  `undefined` to a key is removal.  JS `undefined` reads of scalar fields
  are `Option` with the source's defaulting (`get_shift_double`,
  `get_last_shift_time`, `get_loop_adjust_state`).
* `print` calls are ignored.
-/

namespace PioneerDDJ400

/-- Source: `constants.times = { loop_active: 500, loop_adjust: 250, double_press: 290 }`. -/
def times_loop_active : Nat := 500

def times_loop_adjust : Nat := 250

def times_double_press : Nat := 290

/-- Source: `constants.loop_modifiers = { none: 0, adjust_in: 1, adjust_out: 2 }`. -/
def loop_modifiers_none : Nat := 0

def loop_modifiers_adjust_in : Nat := 1

def loop_modifiers_adjust_out : Nat := 2

/-- Source: `constants.always_toggle_both = false`. -/
def always_toggle_both : Bool := false

/-- Source: `constants.primary_deck = [0, 1]`. -/
def primary_deck (channel : Fin 2) : Nat := channel.val

/-- Source: `constants.default_effect_unit = [1, 1, 2, 2]` (read in `init`). -/
def default_effect_unit (deck : Nat) : Nat := [1, 1, 2, 2].getD deck 0

/-- Source: `constants.sampler_groups`, one row of 8 sampler group names per deck. -/
def sampler_groups (deck : Nat) : List String :=
  match deck with
  | 0 => ["[Sampler1]", "[Sampler2]", "[Sampler3]", "[Sampler4]",
          "[Sampler5]", "[Sampler6]", "[Sampler7]", "[Sampler8]"]
  | 1 => ["[Sampler9]", "[Sampler10]", "[Sampler11]", "[Sampler12]",
          "[Sampler13]", "[Sampler14]", "[Sampler15]", "[Sampler16]"]
  | 2 => ["[Sampler1]", "[Sampler2]", "[Sampler3]", "[Sampler4]",
          "[Sampler5]", "[Sampler6]", "[Sampler7]", "[Sampler8]"]
  | 3 => ["[Sampler9]", "[Sampler10]", "[Sampler11]", "[Sampler12]",
          "[Sampler13]", "[Sampler14]", "[Sampler15]", "[Sampler16]"]
  | _ => []

/-- The external Mixxx engine at one instant: `num_decks` (the source reads
`[Master] num_decks`) and the current value of every (group, control) pair. -/
structure Engine where
  num_decks : Nat
  val : String → String → Nat

/-- Engine-facing effects of one handler run, in call order. -/
inductive Ev where
  | stopTimer (channel : Fin 2) (handle : Nat)
  | disc (channel : Fin 2) (key : String)
  | soft (group : String) (param : String)
  | setMap (channel : Fin 2) (deck : Nat)
  | conn (channel : Fin 2) (key : String) (group : String) (control : String)
  | trig (channel : Fin 2) (key : String) (group : String) (value : Nat)
  | beginTimer (channel : Fin 2) (timer_id : String) (handle : Nat) (period : Nat)
  | setVal (group : String) (param : String) (value : Int)
  | toggleCtl (group : String) (param : String)

/-- The script's mutable state (`PioneerDDJ400.state` plus the fields `init`
assigns), with the engine-side timer pool made explicit. -/
structure State where
  channel_mapping : Fin 2 → Nat
  connections : Fin 2 → List (String × (String × String))
  timers : Fin 2 → List (String × Nat)
  active_timers : List (Fin 2 × Nat)
  next_handle : Nat
  deck_loop_adjust : Nat → Option Nat
  current_loop_modifier : Fin 2 → Nat
  effect_unit : Nat → Nat
  indicators : Fin 2 → String → Option Nat
  shift_button_pressed : Fin 2 → Bool
  shift_double : Fin 2 → Option Bool
  shift_time : Fin 2 → Option Nat
  last_shift_button_pressed : Fin 2
  beatjump_scalestep : Fin 2 → Int

/-- Association-list read, mirroring a JS object property read. -/
def lookupKey {α : Type} : List (String × α) → String → Option α
  | [], _ => none
  | (k, v) :: rest, key => if k = key then some v else lookupKey rest key

/-- Association-list write, mirroring a JS object property assignment. -/
def setKey {α : Type} (l : List (String × α)) (k : String) (v : α) : List (String × α) :=
  (k, v) :: l.filter (fun p => !(p.1 == k))

/-- Association-list delete, mirroring assigning `undefined` to a property. -/
def removeKey {α : Type} (l : List (String × α)) (k : String) : List (String × α) :=
  l.filter (fun p => !(p.1 == k))

/-- Source `internal.deck_to_group`: `'[Channel' + (deck + 1) + ']'`. -/
def deck_to_group (deck : Nat) : String :=
  "[Channel" ++ Nat.repr (deck + 1) ++ "]"

/-- Source `internal.group_to_deck` (switch with default 0). -/
def group_to_deck (group : String) : Nat :=
  if group = "[Channel1]" then 0
  else if group = "[Channel2]" then 1
  else if group = "[Channel3]" then 2
  else if group = "[Channel4]" then 3
  else 0

/-- Source `internal.channel_to_deck`: read of the binding table. -/
def channel_to_deck (s : State) (channel : Fin 2) : Nat :=
  s.channel_mapping channel

/-- Source `internal.channel_to_group`. -/
def channel_to_group (s : State) (channel : Fin 2) : String :=
  deck_to_group (channel_to_deck s channel)

/-- Source `internal.is_deck_active`. -/
def is_deck_active (s : State) (deck : Nat) : Bool :=
  s.channel_mapping 0 == deck || s.channel_mapping 1 == deck

/-- Source `internal.is_group_active`. -/
def is_group_active (s : State) (group : String) : Bool :=
  is_deck_active s (group_to_deck group)

/-- Source `internal.deck_to_channel` (warns and returns 0 when the deck is
not bound to any channel). -/
def deck_to_channel (s : State) (deck : Nat) : Fin 2 :=
  if s.channel_mapping 0 = deck then 0
  else if s.channel_mapping 1 = deck then 1
  else 0

/-- Source `internal.get_loop_active`: `engine.getValue(group, "loop_enabled")`. -/
def get_loop_active (e : Engine) (group : String) : Nat :=
  e.val group "loop_enabled"

/-- Source `internal.get_loop_adjust_state` with its `undefined` default. -/
def get_loop_adjust_state (s : State) (deck : Nat) : Nat :=
  (s.deck_loop_adjust deck).getD loop_modifiers_none

/-- Record on the model's indicator surface that the output handler for
`key` on `channel` was driven with `value` (the handler sends the
corresponding MIDI lights deterministically from that value). -/
def set_indicator (s : State) (channel : Fin 2) (key : String) (value : Nat) : State :=
  { s with indicators := (Function.update s.indicators channel
      (Function.update (s.indicators channel) key (some value))) }

/-- Source `internal.get_last_shift_channel`. -/
def get_last_shift_channel (s : State) : Fin 2 :=
  s.last_shift_button_pressed

/-- Source `internal.get_effect_deck`: the deck bound to the channel whose
shift button was pressed last. -/
def get_effect_deck (s : State) : Nat :=
  channel_to_deck s (get_last_shift_channel s)

/-- Source `internal.get_effect_unit_group`. -/
def get_effect_unit_group (unit : Nat) : String :=
  "[EffectRack1_EffectUnit" ++ Nat.repr unit ++ "]"

/-- Source `internal.get_effect_group`. -/
def get_effect_group (unit slot : Nat) : String :=
  "[EffectRack1_EffectUnit" ++ Nat.repr unit ++ "_Effect" ++ Nat.repr slot ++ "]"

/-- Source `internal.update_fx_light`: drives the single beat-fx light (a
channel-0 output) from the enabled state of the focussed effect of the
active effect unit. -/
def update_fx_light (e : Engine) (s : State) : State :=
  let deck := get_effect_deck s
  let unit := s.effect_unit deck
  let focussed := e.val (get_effect_unit_group unit) "focused_effect"
  let enabled := e.val (get_effect_group unit focussed) "enabled"
  set_indicator s 0 "beat_fx" enabled

/-- Source `internal.update_deck_channel_indicator`: pad light showing
whether the channel is on its primary deck. -/
def update_deck_channel_indicator (s : State) (channel : Fin 2) : State :=
  let deck := channel_to_deck s channel
  let is_primary : Nat := if deck = primary_deck channel then 0x7f else 0x00
  set_indicator s channel "deck_channel_indicator" is_primary

/-- The `stop_blink` closure in `internal.update_loop_inout_lights`: stop and
forget the channel's `loop_inout_blink` timer if one is recorded. -/
def stop_blink (s : State) (channel : Fin 2) : State × List Ev :=
  match lookupKey (s.timers channel) "loop_inout_blink" with
  | some h =>
      ({ s with
          timers := (Function.update s.timers channel
            (removeKey (s.timers channel) "loop_inout_blink")),
          active_timers := s.active_timers.filter (fun q => !(q.2 == h)) },
       [Ev.stopTimer channel h])
  | none => (s, [])

/-- `state.timers[channel][id] = engine.beginTimer(period, ...)`: a fresh
engine timer handle is armed and recorded under `id`. -/
def begin_timer (s : State) (channel : Fin 2) (id : String) (period : Nat) :
    State × List Ev :=
  let h := s.next_handle
  ({ s with
      timers := Function.update s.timers channel (setKey (s.timers channel) id h),
      active_timers := (channel, h) :: s.active_timers,
      next_handle := h + 1 },
   [Ev.beginTimer channel id h period])

/-- Source `internal.update_loop_inout_lights`: recompute the loop in/out
blink state for a channel (stop-then-arm, with the no-restart-flicker
shortcut when the same mode's timer is already running). -/
def update_loop_inout_lights (e : Engine) (channel : Fin 2) (s : State) :
    State × List Ev :=
  let loop_active := get_loop_active e (channel_to_group s channel)
  if loop_active == 0 then
    let r := stop_blink s channel
    ({ r.1 with current_loop_modifier := (Function.update
        r.1.current_loop_modifier channel loop_modifiers_none) },
     r.2)
  else
    let modifier := get_loop_adjust_state s (channel_to_deck s channel)
    let timer_present := !((lookupKey (s.timers channel) "loop_inout_blink") == none)
    let cur_loop_mod := s.current_loop_modifier channel
    if modifier == loop_modifiers_adjust_in then
      if cur_loop_mod == loop_modifiers_adjust_in && timer_present then (s, [])
      else
        let r := stop_blink s channel
        let b := begin_timer r.1 channel "loop_inout_blink" times_loop_adjust
        ({ b.1 with current_loop_modifier := (Function.update
            b.1.current_loop_modifier channel loop_modifiers_adjust_in) },
         r.2 ++ b.2)
    else if modifier == loop_modifiers_adjust_out then
      if cur_loop_mod == loop_modifiers_adjust_out && timer_present then (s, [])
      else
        let r := stop_blink s channel
        let b := begin_timer r.1 channel "loop_inout_blink" times_loop_adjust
        ({ b.1 with current_loop_modifier := (Function.update
            b.1.current_loop_modifier channel loop_modifiers_adjust_out) },
         r.2 ++ b.2)
    else
      if cur_loop_mod == loop_modifiers_none && timer_present then (s, [])
      else
        let r := stop_blink s channel
        let b := begin_timer r.1 channel "loop_inout_blink" times_loop_active
        ({ b.1 with current_loop_modifier := (Function.update
            b.1.current_loop_modifier channel loop_modifiers_none) },
         r.2 ++ b.2)

/-- Source `internal.set_loop_adjust_state`: store the deck's loop-adjust
mode and, when the deck is bound to a channel, recompute that channel's
loop lights. -/
def set_loop_adjust_state (e : Engine) (deck : Nat) (st : Nat) (s : State) :
    State × List Ev :=
  let s1 := { s with deck_loop_adjust := Function.update s.deck_loop_adjust deck (some st) }
  if is_deck_active s1 deck then
    update_loop_inout_lights e (deck_to_channel s1 deck) s1
  else
    (s1, [])

/-- Source `internal.set_loop_enabled` (the `loop_enabled` output handler):
forces the deck's loop-adjust mode to none, then drives the reloop lights
from the delivered value when the group is active. -/
def set_loop_enabled (e : Engine) (value : Nat) (group : String) (s : State) :
    State × List Ev :=
  let deck := group_to_deck group
  let r := set_loop_adjust_state e deck loop_modifiers_none s
  if is_group_active r.1 group then
    (set_indicator r.1 (deck_to_channel r.1 (group_to_deck group)) "loop_enabled" value,
     r.2)
  else
    (r.1, r.2)

/-- Source `PioneerDDJ400.loop_in`: while a loop is active, toggle the
deck's loop-adjust mode between none and adjust-in; otherwise set a fresh
loop-in point. -/
def loop_in (e : Engine) (channel : Fin 2) (value : Nat) (s : State) :
    State × List Ev :=
  if value == 0 then (s, [])
  else
    let deck := channel_to_deck s channel
    let group := deck_to_group deck
    if !(get_loop_active e group == 0) then
      if get_loop_adjust_state s deck == loop_modifiers_adjust_in then
        set_loop_adjust_state e deck loop_modifiers_none s
      else
        set_loop_adjust_state e deck loop_modifiers_adjust_in s
    else
      (s, [Ev.setVal group "loop_end_position" (-1),
           Ev.setVal group "loop_in" 1,
           Ev.setVal group "loop_in" 0])

/-- Source `PioneerDDJ400.loop_out`: symmetric to `loop_in` for adjust-out. -/
def loop_out (e : Engine) (channel : Fin 2) (value : Nat) (s : State) :
    State × List Ev :=
  if value == 0 then (s, [])
  else
    let deck := channel_to_deck s channel
    let group := deck_to_group deck
    if !(get_loop_active e group == 0) then
      if get_loop_adjust_state s deck == loop_modifiers_adjust_out then
        set_loop_adjust_state e deck loop_modifiers_none s
      else
        set_loop_adjust_state e deck loop_modifiers_adjust_out s
    else
      (s, [Ev.setVal group "loop_out" 1, Ev.setVal group "loop_out" 0])

/-- Source `internal.disconnect_channel`: stop every recorded timer of the
channel and clear the timer map, disconnect every recorded connection and
clear the connection map, then issue the soft-takeover guards for the
(still old) bound group's continuous controls. -/
def disconnect_channel (channel : Fin 2) (s : State) : State × List Ev :=
  let stop_evs := (s.timers channel).map (fun p => Ev.stopTimer channel p.2)
  let stopped_handles := (s.timers channel).map (fun p => p.2)
  let s1 := { s with
      timers := Function.update s.timers channel [],
      active_timers := s.active_timers.filter (fun q => !(stopped_handles.contains q.2)) }
  let disc_evs := (s1.connections channel).map (fun p => Ev.disc channel p.1)
  let s2 := { s1 with connections := Function.update s1.connections channel [] }
  let group := channel_to_group s2 channel
  let eq_group := "[EqualizerRack1_" ++ group ++ "_Effect1]"
  let soft_evs := [Ev.soft eq_group "parameter1",
                   Ev.soft eq_group "parameter2",
                   Ev.soft eq_group "parameter3",
                   Ev.soft ("[QuickEffectRack1_" ++ group ++ "]") "super1",
                   Ev.soft group "pregain",
                   Ev.soft group "volume"]
  (s2, stop_evs ++ disc_evs ++ soft_evs)

/-- Source `constants.output_control_to_function`: the fixed observable
output set, each with its handler's fire-immediately flag (`trig`), in
declaration order.  Note `track_loaded` is the only entry with
`trig: false`. -/
def output_control_to_function : List (String × Bool) :=
  [("play_indicator", true),
   ("cue_indicator", true),
   ("VuMeter", true),
   ("track_loaded", false),
   ("sync_enabled", true),
   ("sync_master", true),
   ("pfl", true),
   ("quantize", true),
   ("keylock", true),
   ("loop_enabled", true),
   ("beatloop_0.25_enabled", true),
   ("beatloop_0.5_enabled", true),
   ("beatloop_1_enabled", true),
   ("beatloop_2_enabled", true),
   ("beatloop_4_enabled", true),
   ("beatloop_8_enabled", true),
   ("beatloop_16_enabled", true),
   ("beatloop_32_enabled", true),
   ("hotcue_1_enabled", true),
   ("hotcue_2_enabled", true),
   ("hotcue_3_enabled", true),
   ("hotcue_4_enabled", true),
   ("hotcue_5_enabled", true),
   ("hotcue_6_enabled", true),
   ("hotcue_7_enabled", true),
   ("hotcue_8_enabled", true)]

/-- Effect of `connection.trigger()` / a natural engine update delivering
`value` for the deck-group control `key`: the source handler drives the
channel's lights for `key` from the value (recorded in `indicators`), and
the `loop_enabled` handler `set_loop_enabled` additionally clears the
deck's loop-adjust mode and recomputes the loop lights.  Handlers that
guard on `is_group_active` and handlers that derive the channel directly
via `group_to_channel` agree whenever the group is active, which holds at
every trigger site. -/
def fire_output (e : Engine) (key : String) (group : String) (value : Nat)
    (s : State) : State × List Ev :=
  if key == "loop_enabled" then
    set_loop_enabled e value group s
  else
    if is_group_active s group then
      (set_indicator s (deck_to_channel s (group_to_deck group)) key value, [])
    else
      (s, [])

/-- One iteration of the `for (var control in c2f)` loop in
`internal.connect_channel`: register the connection, then trigger it when
the control is declared fire-immediately. -/
def connect_step (e : Engine) (channel : Fin 2) (deck : Nat) (s : State)
    (entry : String × Bool) : State × List Ev :=
  let group := deck_to_group deck
  let s1 := { s with connections := (Function.update s.connections channel
      (setKey (s.connections channel) entry.1 (group, entry.1))) }
  if entry.2 then
    let v := e.val group entry.1
    let r := fire_output e entry.1 group v s1
    (r.1, [Ev.conn channel entry.1 group entry.1, Ev.trig channel entry.1 group v] ++ r.2)
  else
    (s1, [Ev.conn channel entry.1 group entry.1])

/-- Source `internal.update_sampler`: for every active deck whose sampler
row contains the group, drive that channel's sampler pad lights from the
value. -/
def update_sampler (value : Nat) (sampler_group : String) (s : State) : State :=
  let s1 := if (sampler_groups (s.channel_mapping 0)).contains sampler_group then
      set_indicator s 0 (sampler_group ++ "_light") value
    else s
  if (sampler_groups (s1.channel_mapping 1)).contains sampler_group then
    set_indicator s1 1 (sampler_group ++ "_light") value
  else s1

/-- One iteration of `internal.connect_samplers`: register a connection on
the sampler group's `track_loaded` and trigger it unconditionally. -/
def sampler_step (e : Engine) (channel : Fin 2) (s : State)
    (sampler_group : String) : State × List Ev :=
  let key := sampler_group ++ "_light"
  let s1 := { s with connections := (Function.update s.connections channel
      (setKey (s.connections channel) key (sampler_group, "track_loaded"))) }
  let v := e.val sampler_group "track_loaded"
  let s2 := update_sampler v sampler_group s1
  (s2, [Ev.conn channel key sampler_group "track_loaded",
        Ev.trig channel key sampler_group v])

/-- Run a list of state-and-trace steps left to right, concatenating their
traces (the shape of every `for` loop in the source's connect path). -/
def foldSteps {α : Type} (f : State → α → State × List Ev) (s : State)
    (l : List α) : State × List Ev :=
  match l with
  | [] => (s, [])
  | a :: rest =>
      let r := f s a
      let r2 := foldSteps f r.1 rest
      (r2.1, r.2 ++ r2.2)

/-- Source `internal.connect_channel`: register (and fire-immediately
trigger) every declared output control against the channel's bound deck,
connect the deck's samplers, then restore the deck-channel indicator and
the fx light. -/
def connect_channel (e : Engine) (channel : Fin 2) (s : State) : State × List Ev :=
  let deck := channel_to_deck s channel
  let r1 := foldSteps (connect_step e channel deck) s output_control_to_function
  let r2 := foldSteps (sampler_step e channel) r1.1 (sampler_groups deck)
  let s3 := update_deck_channel_indicator r2.1 channel
  let s4 := update_fx_light e s3
  (s4, r1.2 ++ r2.2)

/-- Source `internal.get_num_decks` is `engine.getValue('[Master]',
'num_decks')`; `internal.next_deck` skips by a literal 2 and wraps modulo
that count. -/
def next_deck (num_decks old_deck : Nat) : Nat :=
  (old_deck + 2) % num_decks

/-- Source `internal.toggle_deck_channel`: when the rotation actually moves,
disconnect the channel, update the binding table, reconnect. -/
def toggle_deck_channel (e : Engine) (channel : Fin 2) (s : State) : State × List Ev :=
  let old_deck := channel_to_deck s channel
  let nd := next_deck e.num_decks old_deck
  if old_deck == nd then (s, [])
  else
    let r1 := disconnect_channel channel s
    let s2 := { r1.1 with channel_mapping := Function.update r1.1.channel_mapping channel nd }
    let r3 := connect_channel e channel s2
    (r3.1, r1.2 ++ [Ev.setMap channel nd] ++ r3.2)

/-- Source `internal.toggle_deck_channel_gateway` with the constant
`always_toggle_both` (false in the source). -/
def toggle_deck_channel_gateway (e : Engine) (channel : Fin 2) (s : State) :
    State × List Ev :=
  if always_toggle_both then
    let r0 := toggle_deck_channel e 0 s
    let r1 := toggle_deck_channel e 1 r0.1
    (r1.1, r0.2 ++ r1.2)
  else
    toggle_deck_channel e channel s

/-- Source `internal.shift_double_press`. -/
def shift_double_press (e : Engine) (channel : Fin 2) (s : State) : State × List Ev :=
  toggle_deck_channel_gateway e channel s

/-- Source `internal.get_shift_double` with its `undefined` default. -/
def get_shift_double (s : State) (channel : Fin 2) : Bool :=
  (s.shift_double channel).getD false

/-- Source `internal.get_last_shift_time` with its `undefined` default. -/
def get_last_shift_time (s : State) (channel : Fin 2) : Nat :=
  (s.shift_time channel).getD 0

/-- Source `internal.set_shift_button_pressed` (`now` is `Date.now()`; the
comparison is done in `Int` exactly as JS arithmetic would).  The third
component reports whether this edge fired `shift_double_press`. -/
def set_shift_button_pressed (e : Engine) (channel : Fin 2) (pressed : Bool)
    (now : Nat) (s : State) : State × List Ev × Bool :=
  let s1 := { s with shift_button_pressed := Function.update s.shift_button_pressed channel pressed }
  let last_ch := s1.last_shift_button_pressed
  let s2 := { s1 with last_shift_button_pressed := channel }
  let s2f := if last_ch ≠ channel then update_fx_light e s2 else s2
  let within_time : Bool := (now : Int) - (get_last_shift_time s2f channel : Int) < (times_double_press : Int)
  if pressed then
    let s3 := { s2f with shift_double := Function.update s2f.shift_double channel (some within_time) }
    let s4 := if within_time then s3
      else { s3 with shift_time := Function.update s3.shift_time channel (some now) }
    (s4, [], false)
  else
    if within_time && get_shift_double s2f channel then
      let r := shift_double_press e channel s2f
      (r.1, r.2, true)
    else
      (s2f, [], false)

/-- Process a list of shift-button edges `(channel, pressed, Date.now())`,
collecting which edges fired the double-press action. -/
def run_shift (e : Engine) (s : State) :
    List (Fin 2 × Bool × Nat) → State × List Bool
  | [] => (s, [])
  | (c, p, t) :: rest =>
      let r := set_shift_button_pressed e c p t s
      let r2 := run_shift e r.1 rest
      (r2.1, r.2.2 :: r2.2)

/-- Source `internal.allow_beatjump_downscale`:
`!(beatjump_scalestep <= -1)`. -/
def allow_beatjump_downscale (s : State) (channel : Fin 2) : Bool :=
  !(s.beatjump_scalestep channel ≤ -1 : Bool)

/-- Source `internal.allow_beatjump_upscale`:
`!(beatjump_scalestep >= 1)`. -/
def allow_beatjump_upscale (s : State) (channel : Fin 2) : Bool :=
  !(s.beatjump_scalestep channel ≥ 1 : Bool)

/-- Source `PioneerDDJ400.handle_beatjump_shift`: pad 0 toggles the deck,
pad 1 toggles headphone cue split, pad 3 toggles keylock, pads 6/7 scale
the beatjump step down/up when the corresponding allow flag holds. -/
def handle_beatjump_shift (e : Engine) (channel : Fin 2) (padnum : Nat)
    (s : State) : State × List Ev :=
  if padnum == 0 then
    toggle_deck_channel_gateway e channel s
  else if padnum == 1 then
    (s, [Ev.toggleCtl "[Master]" "headSplit"])
  else if padnum == 3 then
    (s, [Ev.toggleCtl (channel_to_group s channel) "keylock"])
  else
    let allow_up := allow_beatjump_upscale s channel
    let allow_down := allow_beatjump_downscale s channel
    if padnum == 6 && allow_down then
      ({ s with beatjump_scalestep := (Function.update s.beatjump_scalestep channel
          (s.beatjump_scalestep channel - 1)) }, [])
    else if padnum == 7 && allow_up then
      ({ s with beatjump_scalestep := (Function.update s.beatjump_scalestep channel
          (s.beatjump_scalestep channel + 1)) }, [])
    else
      (s, [])

/-- The script state right after `init`'s direct field assignments
(`PioneerDDJ400.state` literal, beatjump scale steps, current loop
modifiers, effect units), before the initial `connect_channel` calls, which
are reachability steps. -/
def init_state : State where
  channel_mapping := fun c => if c = 0 then 0 else 1
  connections := fun _ => []
  timers := fun _ => []
  active_timers := []
  next_handle := 0
  deck_loop_adjust := fun _ => none
  current_loop_modifier := fun _ => loop_modifiers_none
  effect_unit := default_effect_unit
  indicators := fun _ _ => none
  shift_button_pressed := fun _ => false
  shift_double := fun _ => none
  shift_time := fun _ => none
  last_shift_button_pressed := 0
  beatjump_scalestep := fun _ => 0

/-- States reachable from `init_state` by the script's handlers, each step
run against an arbitrary engine satisfying `P` (the engine may change
between handler invocations). -/
inductive ReachP (P : Engine → Prop) : State → Prop where
  | init : ReachP P init_state
  | gateway {s} (e : Engine) (c : Fin 2) : P e → ReachP P s →
      ReachP P (toggle_deck_channel_gateway e c s).1
  | shift_edge {s} (e : Engine) (c : Fin 2) (pressed : Bool) (now : Nat) : P e →
      ReachP P s → ReachP P (set_shift_button_pressed e c pressed now s).1
  | lin {s} (e : Engine) (c : Fin 2) (v : Nat) : P e → ReachP P s →
      ReachP P (loop_in e c v s).1
  | lout {s} (e : Engine) (c : Fin 2) (v : Nat) : P e → ReachP P s →
      ReachP P (loop_out e c v s).1
  | loop_cb {s} (e : Engine) (v : Nat) (g : String) : P e → ReachP P s →
      ReachP P (set_loop_enabled e v g s).1
  | relight {s} (e : Engine) (c : Fin 2) : P e → ReachP P s →
      ReachP P (update_loop_inout_lights e c s).1
  | beatjump {s} (e : Engine) (c : Fin 2) (padnum : Nat) : P e → ReachP P s →
      ReachP P (handle_beatjump_shift e c padnum s).1
  | conn_ch {s} (e : Engine) (c : Fin 2) : P e → ReachP P s →
      ReachP P (connect_channel e c s).1
  | disc_ch {s} (c : Fin 2) : ReachP P s → ReachP P (disconnect_channel c s).1

/-! ### Frame lemmas: which state fields each handler leaves untouched -/

/-- Fields no handler except the shift debouncer itself touches. -/
structure NBFrame (s s' : State) : Prop where
  bj : s'.beatjump_scalestep = s.beatjump_scalestep
  sbp : s'.shift_button_pressed = s.shift_button_pressed
  sd : s'.shift_double = s.shift_double
  stt : s'.shift_time = s.shift_time
  lsp : s'.last_shift_button_pressed = s.last_shift_button_pressed
  eu : s'.effect_unit = s.effect_unit

/-- `NBFrame` plus an unchanged binding table. -/
structure UFrame (s s' : State) : Prop where
  map : s'.channel_mapping = s.channel_mapping
  bj : s'.beatjump_scalestep = s.beatjump_scalestep
  sbp : s'.shift_button_pressed = s.shift_button_pressed
  sd : s'.shift_double = s.shift_double
  stt : s'.shift_time = s.shift_time
  lsp : s'.last_shift_button_pressed = s.last_shift_button_pressed
  eu : s'.effect_unit = s.effect_unit

theorem UFrame_refl {s : State} : UFrame s s := ⟨rfl, rfl, rfl, rfl, rfl, rfl, rfl⟩

theorem UFrame_trans {a b c : State} (h1 : UFrame a b) (h2 : UFrame b c) : UFrame a c :=
  ⟨h2.map.trans h1.map, h2.bj.trans h1.bj, h2.sbp.trans h1.sbp, h2.sd.trans h1.sd,
   h2.stt.trans h1.stt, h2.lsp.trans h1.lsp, h2.eu.trans h1.eu⟩

theorem UFrame.toNB {a b : State} (h : UFrame a b) : NBFrame a b :=
  ⟨h.bj, h.sbp, h.sd, h.stt, h.lsp, h.eu⟩

theorem NBFrame_trans {a b c : State} (h1 : NBFrame a b) (h2 : NBFrame b c) : NBFrame a c :=
  ⟨h2.bj.trans h1.bj, h2.sbp.trans h1.sbp, h2.sd.trans h1.sd,
   h2.stt.trans h1.stt, h2.lsp.trans h1.lsp, h2.eu.trans h1.eu⟩

theorem set_indicator_frame {s : State} {c : Fin 2} {k : String} {v : Nat} :
    UFrame s (set_indicator s c k v) := ⟨rfl, rfl, rfl, rfl, rfl, rfl, rfl⟩

theorem update_fx_light_frame {e : Engine} {s : State} :
    UFrame s (update_fx_light e s) := ⟨rfl, rfl, rfl, rfl, rfl, rfl, rfl⟩

theorem update_deck_channel_indicator_frame {s : State} {c : Fin 2} :
    UFrame s (update_deck_channel_indicator s c) := ⟨rfl, rfl, rfl, rfl, rfl, rfl, rfl⟩

theorem stop_blink_frame {s : State} {c : Fin 2} : UFrame s (stop_blink s c).1 := by
  simp only [stop_blink]
  split <;> exact ⟨rfl, rfl, rfl, rfl, rfl, rfl, rfl⟩

theorem begin_timer_frame (s : State) (c : Fin 2) (i : String) (p : Nat) :
    UFrame s (begin_timer s c i p).1 := ⟨rfl, rfl, rfl, rfl, rfl, rfl, rfl⟩

theorem update_loop_inout_lights_frame {e : Engine} {c : Fin 2} {s : State} :
    UFrame s (update_loop_inout_lights e c s).1 := by
  simp only [update_loop_inout_lights]
  split
  · exact UFrame_trans stop_blink_frame ⟨rfl, rfl, rfl, rfl, rfl, rfl, rfl⟩
  · split
    · split
      · exact UFrame_refl
      · exact UFrame_trans (UFrame_trans stop_blink_frame
          (begin_timer_frame _ c "loop_inout_blink" times_loop_adjust))
          ⟨rfl, rfl, rfl, rfl, rfl, rfl, rfl⟩
    · split
      · split
        · exact UFrame_refl
        · exact UFrame_trans (UFrame_trans stop_blink_frame
            (begin_timer_frame _ c "loop_inout_blink" times_loop_adjust))
            ⟨rfl, rfl, rfl, rfl, rfl, rfl, rfl⟩
      · split
        · exact UFrame_refl
        · exact UFrame_trans (UFrame_trans stop_blink_frame
            (begin_timer_frame _ c "loop_inout_blink" times_loop_active))
            ⟨rfl, rfl, rfl, rfl, rfl, rfl, rfl⟩

theorem set_loop_adjust_state_frame {e : Engine} {deck st : Nat} {s : State} :
    UFrame s (set_loop_adjust_state e deck st s).1 := by
  simp only [set_loop_adjust_state]
  split
  · refine UFrame_trans ?_ update_loop_inout_lights_frame
    exact ⟨rfl, rfl, rfl, rfl, rfl, rfl, rfl⟩
  · exact ⟨rfl, rfl, rfl, rfl, rfl, rfl, rfl⟩

theorem set_loop_enabled_frame {e : Engine} {v : Nat} {g : String} {s : State} :
    UFrame s (set_loop_enabled e v g s).1 := by
  simp only [set_loop_enabled]
  split
  · exact UFrame_trans set_loop_adjust_state_frame set_indicator_frame
  · exact set_loop_adjust_state_frame

theorem fire_output_frame {e : Engine} {k g : String} {v : Nat} {s : State} :
    UFrame s (fire_output e k g v s).1 := by
  simp only [fire_output]
  split
  · exact set_loop_enabled_frame
  · split
    · exact set_indicator_frame
    · exact UFrame_refl

theorem loop_in_frame {e : Engine} {c : Fin 2} {v : Nat} {s : State} :
    UFrame s (loop_in e c v s).1 := by
  simp only [loop_in]
  split
  · exact UFrame_refl
  · split
    · split <;> exact set_loop_adjust_state_frame
    · exact UFrame_refl

theorem loop_out_frame {e : Engine} {c : Fin 2} {v : Nat} {s : State} :
    UFrame s (loop_out e c v s).1 := by
  simp only [loop_out]
  split
  · exact UFrame_refl
  · split
    · split <;> exact set_loop_adjust_state_frame
    · exact UFrame_refl

theorem update_sampler_frame {v : Nat} {g : String} {s : State} :
    UFrame s (update_sampler v g s) := by
  simp only [update_sampler]
  split <;> split <;>
    first
      | exact UFrame_trans set_indicator_frame set_indicator_frame
      | exact set_indicator_frame
      | exact UFrame_refl

theorem connect_step_frame {e : Engine} {c : Fin 2} {d : Nat} {s : State}
    {p : String × Bool} : UFrame s (connect_step e c d s p).1 := by
  simp only [connect_step]
  split
  · refine UFrame_trans ?_ fire_output_frame
    exact ⟨rfl, rfl, rfl, rfl, rfl, rfl, rfl⟩
  · exact ⟨rfl, rfl, rfl, rfl, rfl, rfl, rfl⟩

theorem sampler_step_frame {e : Engine} {c : Fin 2} {s : State} {g : String} :
    UFrame s (sampler_step e c s g).1 := by
  refine UFrame_trans ?_ update_sampler_frame
  exact ⟨rfl, rfl, rfl, rfl, rfl, rfl, rfl⟩

theorem foldSteps_frame {α : Type} {f : State → α → State × List Ev}
    (hf : ∀ s a, UFrame s (f s a).1) :
    ∀ (l : List α) (s : State), UFrame s (foldSteps f s l).1 := by
  intro l
  induction l with
  | nil => intro s; exact UFrame_refl
  | cons a rest ih => intro s; exact UFrame_trans (hf s a) (ih (f s a).1)

theorem connect_channel_frame {e : Engine} {c : Fin 2} {s : State} :
    UFrame s (connect_channel e c s).1 := by
  unfold connect_channel
  exact UFrame_trans (UFrame_trans (foldSteps_frame (fun s a => connect_step_frame) _ _)
    (foldSteps_frame (fun s a => sampler_step_frame) _ _))
    (UFrame_trans update_deck_channel_indicator_frame update_fx_light_frame)

theorem disconnect_channel_frame {c : Fin 2} {s : State} :
    UFrame s (disconnect_channel c s).1 := ⟨rfl, rfl, rfl, rfl, rfl, rfl, rfl⟩

/-- `toggle_deck_channel` either leaves the binding table unchanged (the
degenerate rotation) or rebinds exactly the toggled channel; everything in
`NBFrame` is untouched either way. -/
theorem toggle_deck_channel_frame {e : Engine} {c : Fin 2} {s : State} :
    NBFrame s (toggle_deck_channel e c s).1 ∧
      ((toggle_deck_channel e c s).1.channel_mapping = s.channel_mapping ∨
       (toggle_deck_channel e c s).1.channel_mapping =
         Function.update s.channel_mapping c
           (next_deck e.num_decks (s.channel_mapping c))) := by
  simp only [toggle_deck_channel]
  split
  · exact ⟨⟨rfl, rfl, rfl, rfl, rfl, rfl⟩, Or.inl rfl⟩
  · constructor
    · refine NBFrame_trans ?_ connect_channel_frame.toNB
      refine NBFrame_trans (UFrame.toNB (disconnect_channel_frame (c := c) (s := s))) ?_
      exact ⟨rfl, rfl, rfl, rfl, rfl, rfl⟩
    · exact Or.inr ((connect_channel_frame.map).trans rfl)

theorem gateway_frame {e : Engine} {c : Fin 2} {s : State} :
    NBFrame s (toggle_deck_channel_gateway e c s).1 ∧
      ((toggle_deck_channel_gateway e c s).1.channel_mapping = s.channel_mapping ∨
       (toggle_deck_channel_gateway e c s).1.channel_mapping =
         Function.update s.channel_mapping c
           (next_deck e.num_decks (s.channel_mapping c))) := by
  unfold toggle_deck_channel_gateway always_toggle_both
  simp only [Bool.false_eq_true, if_false]
  exact toggle_deck_channel_frame

/-- Effect of one reachability step on the binding table: either untouched,
or exactly one channel rebound through `next_deck`. -/
def MapStep (e : Engine) (s s' : State) : Prop :=
  s'.channel_mapping = s.channel_mapping ∨
  ∃ ch : Fin 2, s'.channel_mapping =
    Function.update s.channel_mapping ch (next_deck e.num_decks (s.channel_mapping ch))

theorem gateway_map {e : Engine} {c : Fin 2} {s : State} :
    MapStep e s (toggle_deck_channel_gateway e c s).1 := by
  rcases (gateway_frame (e := e) (c := c) (s := s)).2 with h | h
  · exact Or.inl h
  · exact Or.inr ⟨c, h⟩

theorem shift_edge_effects {e : Engine} {c : Fin 2} {p : Bool} {now : Nat} {s : State} :
    (set_shift_button_pressed e c p now s).1.beatjump_scalestep = s.beatjump_scalestep ∧
    MapStep e s (set_shift_button_pressed e c p now s).1 := by
  simp only [set_shift_button_pressed]
  split
  · split
    · split <;> exact ⟨rfl, Or.inl rfl⟩
    · split <;> exact ⟨rfl, Or.inl rfl⟩
  · split
    · split
      · constructor
        · exact ((gateway_frame.1).bj).trans rfl
        · rcases gateway_frame.2 with h | h
          · exact Or.inl (h.trans rfl)
          · exact Or.inr ⟨c, h.trans rfl⟩
      · exact ⟨rfl, Or.inl rfl⟩
    · split
      · constructor
        · exact ((gateway_frame.1).bj).trans rfl
        · rcases gateway_frame.2 with h | h
          · exact Or.inl (h.trans rfl)
          · exact Or.inr ⟨c, h.trans rfl⟩
      · exact ⟨rfl, Or.inl rfl⟩

theorem beatjump_effects {e : Engine} {c : Fin 2} {n : Nat} {s : State} :
    MapStep e s (handle_beatjump_shift e c n s).1 ∧
    (∀ i : Fin 2, (handle_beatjump_shift e c n s).1.beatjump_scalestep i = s.beatjump_scalestep i ∨
      ((handle_beatjump_shift e c n s).1.beatjump_scalestep i = s.beatjump_scalestep i - 1 ∧
        allow_beatjump_downscale s i = true ∧ i = c) ∨
      ((handle_beatjump_shift e c n s).1.beatjump_scalestep i = s.beatjump_scalestep i + 1 ∧
        allow_beatjump_upscale s i = true ∧ i = c)) := by
  simp only [handle_beatjump_shift]
  split
  · refine ⟨gateway_map, fun i => Or.inl ?_⟩
    exact congrFun (gateway_frame.1).bj i
  · split
    · exact ⟨Or.inl rfl, fun i => Or.inl rfl⟩
    · split
      · exact ⟨Or.inl rfl, fun i => Or.inl rfl⟩
      · split
        · rename_i hcond
          refine ⟨Or.inl rfl, fun i => ?_⟩
          by_cases hic : i = c
          · subst hic
            refine Or.inr (Or.inl ⟨?_, ?_, rfl⟩)
            · simp [Function.update]
            · exact (Bool.and_eq_true _ _ |>.mp hcond).2
          · exact Or.inl (by simp [Function.update, hic])
        · split
          · rename_i hcond2
            refine ⟨Or.inl rfl, fun i => ?_⟩
            by_cases hic : i = c
            · subst hic
              refine Or.inr (Or.inr ⟨?_, ?_, rfl⟩)
              · simp [Function.update]
              · exact (Bool.and_eq_true _ _ |>.mp hcond2).2
            · exact Or.inl (by simp [Function.update, hic])
          · exact ⟨Or.inl rfl, fun i => Or.inl rfl⟩

/-- The 4-deck reachability invariant behind binding exclusivity: channel 0
is always on an even deck below 4 and channel 1 on an odd deck below 4. -/
def Inv1 (s : State) : Prop :=
  s.channel_mapping 0 % 2 = 0 ∧ s.channel_mapping 1 % 2 = 1 ∧
  s.channel_mapping 0 < 4 ∧ s.channel_mapping 1 < 4

theorem inv1_mapstep {e : Engine} {s s' : State} (he : e.num_decks = 4)
    (hm : MapStep e s s') (h : Inv1 s) : Inv1 s' := by
  obtain ⟨h0, h1, hb0, hb1⟩ := h
  rcases hm with hm | ⟨ch, hm⟩
  · exact ⟨by rw [hm]; exact h0, by rw [hm]; exact h1, by rw [hm]; exact hb0, by rw [hm]; exact hb1⟩
  · fin_cases ch <;>
      refine ⟨?_, ?_, ?_, ?_⟩ <;>
        simp [hm, next_deck, he, Function.update_apply, Fin.ext_iff] <;>
        omega

theorem reach4_inv1 {s : State} (h : ReachP (fun e => e.num_decks = 4) s) : Inv1 s := by
  induction h with
  | init => refine ⟨?_, ?_, ?_, ?_⟩ <;> simp [init_state]
  | gateway e c hP _ ih => exact inv1_mapstep hP gateway_map ih
  | shift_edge e c p now hP _ ih => exact inv1_mapstep hP shift_edge_effects.2 ih
  | lin e c v hP _ ih => exact inv1_mapstep hP (Or.inl loop_in_frame.map) ih
  | lout e c v hP _ ih => exact inv1_mapstep hP (Or.inl loop_out_frame.map) ih
  | loop_cb e v g hP _ ih => exact inv1_mapstep hP (Or.inl set_loop_enabled_frame.map) ih
  | relight e c hP _ ih => exact inv1_mapstep hP (Or.inl update_loop_inout_lights_frame.map) ih
  | beatjump e c n hP _ ih => exact inv1_mapstep hP beatjump_effects.1 ih
  | conn_ch e c hP _ ih => exact inv1_mapstep hP (Or.inl connect_channel_frame.map) ih
  | disc_ch c _ ih =>
      exact inv1_mapstep (e := Engine.mk 4 (fun _ _ => 0)) rfl
        (Or.inl disconnect_channel_frame.map) ih

/-- Claim C1: in every state reachable from the initial binding
`channel_mapping = [0, 1]` by the script's handlers run against 4-deck
engines, the two physical channels are bound to different decks. -/
theorem C1_binding_exclusivity {s : State}
    (h : ReachP (fun e => e.num_decks = 4) s) :
    s.channel_mapping 0 ≠ s.channel_mapping 1 := by
  obtain ⟨h0, h1, _, _⟩ := reach4_inv1 h
  omega

/-- Witness for C1 at the initial state. -/
theorem C1_binding_exclusivity_witness :
    init_state.channel_mapping 0 ≠ init_state.channel_mapping 1 :=
  C1_binding_exclusivity ReachP.init

/-- A 4-deck engine whose every parameter reads 0 (no loop active). -/
def engine0 : Engine := ⟨4, fun _ _ => 0⟩

/-- A 4-deck engine whose every parameter reads 1 (loops active everywhere). -/
def engine1 : Engine := ⟨4, fun _ _ => 1⟩

/-- Counterexample to claim C4 as stated: with 6 decks reported by the
engine, `next_deck` still skips by 2, not by half the deck count (3). -/
theorem C4_next_deck_counterexample :
    next_deck 6 0 ≠ (0 + 6 / 2) % 6 := by decide

set_option maxRecDepth 8000 in
/-- Claim C4 (amended): `next_deck` always skips by a literal 2 modulo the
engine's deck count; with this program's 4 decks that coincides with the
skip-by-half rule, and toggling channel 0 from the initial binding rebinds
it from deck 0 to deck 2 while channel 1 stays on deck 1. -/
theorem C4_next_deck_amended :
    (∀ n d : Nat, next_deck n d = (d + 2) % n) ∧
    (∀ d : Nat, next_deck 4 d = (d + 4 / 2) % 4) ∧
    (toggle_deck_channel engine0 0 init_state).1.channel_mapping 0 = 2 ∧
    (toggle_deck_channel engine0 0 init_state).1.channel_mapping 1 = 1 := by
  refine ⟨fun n d => rfl, fun d => rfl, ?_, ?_⟩ <;> decide

/-- The per-channel beatjump scale step stays inside the configured range. -/
def InvBJ (s : State) : Prop :=
  ∀ i : Fin 2, -1 ≤ s.beatjump_scalestep i ∧ s.beatjump_scalestep i ≤ 1

theorem invBJ_step {s s' : State}
    (h : ∀ i : Fin 2, s'.beatjump_scalestep i = s.beatjump_scalestep i ∨
      (s'.beatjump_scalestep i = s.beatjump_scalestep i - 1 ∧
        allow_beatjump_downscale s i = true) ∨
      (s'.beatjump_scalestep i = s.beatjump_scalestep i + 1 ∧
        allow_beatjump_upscale s i = true)) (hs : InvBJ s) : InvBJ s' := by
  intro i
  obtain ⟨hl, hr⟩ := hs i
  rcases h i with hi | ⟨hi, hd⟩ | ⟨hi, hu⟩
  · omega
  · have : ¬(s.beatjump_scalestep i ≤ -1) := by
      simpa [allow_beatjump_downscale] using hd
    omega
  · have : ¬(1 ≤ s.beatjump_scalestep i) := by
      simpa [allow_beatjump_upscale] using hu
    omega

theorem invBJ_of_eq {s s' : State}
    (h : s'.beatjump_scalestep = s.beatjump_scalestep) (hs : InvBJ s) : InvBJ s' :=
  invBJ_step (fun i => Or.inl (congrFun h i)) hs

theorem reach_invBJ {s : State} (h : ReachP (fun _ => True) s) : InvBJ s := by
  induction h with
  | init => intro i; constructor <;> simp [init_state]
  | gateway e c hP _ ih => exact invBJ_of_eq (gateway_frame.1).bj ih
  | shift_edge e c p now hP _ ih => exact invBJ_of_eq shift_edge_effects.1 ih
  | lin e c v hP _ ih => exact invBJ_of_eq loop_in_frame.bj ih
  | lout e c v hP _ ih => exact invBJ_of_eq loop_out_frame.bj ih
  | loop_cb e v g hP _ ih => exact invBJ_of_eq set_loop_enabled_frame.bj ih
  | relight e c hP _ ih => exact invBJ_of_eq update_loop_inout_lights_frame.bj ih
  | beatjump e c n hP _ ih =>
      refine invBJ_step (fun i => ?_) ih
      rcases beatjump_effects.2 i with hi | ⟨hi, hd, _⟩ | ⟨hi, hu, _⟩
      · exact Or.inl hi
      · exact Or.inr (Or.inl ⟨hi, hd⟩)
      · exact Or.inr (Or.inr ⟨hi, hu⟩)
  | conn_ch e c hP _ ih => exact invBJ_of_eq connect_channel_frame.bj ih
  | disc_ch c _ ih => exact invBJ_of_eq disconnect_channel_frame.bj ih

/-- Claim C9: in every reachable state the beatjump scale step stays in
[-1, 1], the further-decrease indicator is false exactly at -1 (and the
further-increase indicator false exactly at +1); three consecutive decrease
requests from the initial step 0 end at -1, a fourth is a no-op there, and
the decrease indicator is then off. -/
theorem C9_beatjump_scale_bounds :
    (∀ s : State, ReachP (fun _ => True) s →
      (∀ i : Fin 2, -1 ≤ s.beatjump_scalestep i ∧ s.beatjump_scalestep i ≤ 1) ∧
      (∀ i : Fin 2, allow_beatjump_downscale s i = false ↔ s.beatjump_scalestep i = -1) ∧
      (∀ i : Fin 2, allow_beatjump_upscale s i = false ↔ s.beatjump_scalestep i = 1)) ∧
    ((handle_beatjump_shift engine0 0 6 (handle_beatjump_shift engine0 0 6
        (handle_beatjump_shift engine0 0 6 init_state).1).1).1.beatjump_scalestep 0 = -1 ∧
     (handle_beatjump_shift engine0 0 6 (handle_beatjump_shift engine0 0 6
        (handle_beatjump_shift engine0 0 6 (handle_beatjump_shift engine0 0 6
          init_state).1).1).1).1.beatjump_scalestep 0 = -1 ∧
     allow_beatjump_downscale (handle_beatjump_shift engine0 0 6
        (handle_beatjump_shift engine0 0 6
          (handle_beatjump_shift engine0 0 6 init_state).1).1).1 0 = false) := by
  constructor
  · intro s hs
    have hb := reach_invBJ hs
    refine ⟨hb, fun i => ?_, fun i => ?_⟩
    · obtain ⟨hl, hr⟩ := hb i
      simp only [allow_beatjump_downscale, Bool.not_eq_false', decide_eq_true_eq]
      omega
    · obtain ⟨hl, hr⟩ := hb i
      simp only [allow_beatjump_upscale, Bool.not_eq_false', decide_eq_true_eq]
      omega
  · refine ⟨?_, ?_, ?_⟩ <;> decide

/-- Witness for C9 at the initial state. -/
theorem C9_beatjump_scale_bounds_witness :
    (∀ i : Fin 2, -1 ≤ init_state.beatjump_scalestep i ∧
      init_state.beatjump_scalestep i ≤ 1) ∧
    (∀ i : Fin 2, allow_beatjump_downscale init_state i = false ↔
      init_state.beatjump_scalestep i = -1) :=
  ⟨(C9_beatjump_scale_bounds.1 init_state ReachP.init).1,
   (C9_beatjump_scale_bounds.1 init_state ReachP.init).2.1⟩

theorem stop_blink_dla {s : State} {c : Fin 2} :
    (stop_blink s c).1.deck_loop_adjust = s.deck_loop_adjust := by
  simp only [stop_blink]
  split <;> rfl

theorem update_loop_inout_lights_dla {e : Engine} {c : Fin 2} {s : State} :
    (update_loop_inout_lights e c s).1.deck_loop_adjust = s.deck_loop_adjust := by
  simp only [update_loop_inout_lights]
  split
  · exact stop_blink_dla
  · split
    · split
      · rfl
      · exact stop_blink_dla
    · split
      · split
        · rfl
        · exact stop_blink_dla
      · split
        · rfl
        · exact stop_blink_dla

theorem set_loop_adjust_state_dla {e : Engine} {d st : Nat} {s : State} :
    (set_loop_adjust_state e d st s).1.deck_loop_adjust =
      Function.update s.deck_loop_adjust d (some st) := by
  simp only [set_loop_adjust_state]
  split
  · exact update_loop_inout_lights_dla.trans rfl
  · rfl

/-- While a loop is active, a `loop_in` press writes the toggled adjust-in
mode into the bound deck's loop-adjust cell. -/
theorem loop_in_adjust {e : Engine} {c : Fin 2} {v : Nat} {s : State} (hv : v ≠ 0)
    (hl : get_loop_active e (deck_to_group (channel_to_deck s c)) ≠ 0) :
    (loop_in e c v s).1.deck_loop_adjust =
      Function.update s.deck_loop_adjust (channel_to_deck s c)
        (some (if get_loop_adjust_state s (channel_to_deck s c) = loop_modifiers_adjust_in
               then loop_modifiers_none else loop_modifiers_adjust_in)) := by
  have hv2 : (v == 0) = false := by simpa using hv
  have hl2 : (get_loop_active e (deck_to_group (channel_to_deck s c)) == 0) = false := by
    simpa using hl
  simp only [loop_in, hv2, hl2, Bool.false_eq_true, if_false, Bool.not_false, if_true]
  split
  · rename_i hmod
    rw [if_pos (show get_loop_adjust_state s (channel_to_deck s c) = loop_modifiers_adjust_in by
      simpa using hmod)]
    exact set_loop_adjust_state_dla
  · rename_i hmod
    rw [if_neg (show ¬ get_loop_adjust_state s (channel_to_deck s c) = loop_modifiers_adjust_in by
      simpa using hmod)]
    exact set_loop_adjust_state_dla

/-- Symmetric to `loop_in_adjust` for `loop_out`. -/
theorem loop_out_adjust {e : Engine} {c : Fin 2} {v : Nat} {s : State} (hv : v ≠ 0)
    (hl : get_loop_active e (deck_to_group (channel_to_deck s c)) ≠ 0) :
    (loop_out e c v s).1.deck_loop_adjust =
      Function.update s.deck_loop_adjust (channel_to_deck s c)
        (some (if get_loop_adjust_state s (channel_to_deck s c) = loop_modifiers_adjust_out
               then loop_modifiers_none else loop_modifiers_adjust_out)) := by
  have hv2 : (v == 0) = false := by simpa using hv
  have hl2 : (get_loop_active e (deck_to_group (channel_to_deck s c)) == 0) = false := by
    simpa using hl
  simp only [loop_out, hv2, hl2, Bool.false_eq_true, if_false, Bool.not_false, if_true]
  split
  · rename_i hmod
    rw [if_pos (show get_loop_adjust_state s (channel_to_deck s c) = loop_modifiers_adjust_out by
      simpa using hmod)]
    exact set_loop_adjust_state_dla
  · rename_i hmod
    rw [if_neg (show ¬ get_loop_adjust_state s (channel_to_deck s c) = loop_modifiers_adjust_out by
      simpa using hmod)]
    exact set_loop_adjust_state_dla

/-- Claim C7: while a loop is active on the deck bound to a channel,
`loop_in` toggles that deck's loop-adjust state between none and adjust-in
(pressing it while already adjusting-in returns to none), symmetrically for
`loop_out`; from the none state, in-in returns to none and in-then-out
leaves adjust-out, not a combination. -/
theorem C7_loop_adjust_toggle {e : Engine} {s : State} {c : Fin 2} {v : Nat}
    (hv : v ≠ 0)
    (hl : get_loop_active e (deck_to_group (channel_to_deck s c)) ≠ 0) :
    ((get_loop_adjust_state s (channel_to_deck s c) = loop_modifiers_adjust_in →
        get_loop_adjust_state (loop_in e c v s).1 (channel_to_deck s c) =
          loop_modifiers_none) ∧
     (get_loop_adjust_state s (channel_to_deck s c) ≠ loop_modifiers_adjust_in →
        get_loop_adjust_state (loop_in e c v s).1 (channel_to_deck s c) =
          loop_modifiers_adjust_in)) ∧
    ((get_loop_adjust_state s (channel_to_deck s c) = loop_modifiers_adjust_out →
        get_loop_adjust_state (loop_out e c v s).1 (channel_to_deck s c) =
          loop_modifiers_none) ∧
     (get_loop_adjust_state s (channel_to_deck s c) ≠ loop_modifiers_adjust_out →
        get_loop_adjust_state (loop_out e c v s).1 (channel_to_deck s c) =
          loop_modifiers_adjust_out)) ∧
    (get_loop_adjust_state s (channel_to_deck s c) = loop_modifiers_none →
      get_loop_adjust_state (loop_in e c v (loop_in e c v s).1).1 (channel_to_deck s c) =
        loop_modifiers_none ∧
      get_loop_adjust_state (loop_out e c v (loop_in e c v s).1).1 (channel_to_deck s c) =
        loop_modifiers_adjust_out) := by
  have hmap : (loop_in e c v s).1.channel_mapping = s.channel_mapping := loop_in_frame.map
  have hdeck : channel_to_deck (loop_in e c v s).1 c = channel_to_deck s c := by
    simp only [channel_to_deck, hmap]
  have hl2 : get_loop_active e (deck_to_group (channel_to_deck (loop_in e c v s).1 c)) ≠ 0 := by
    rw [hdeck]; exact hl
  have key_in := loop_in_adjust hv hl
  constructor
  · constructor
    · intro h
      rw [get_loop_adjust_state, key_in, Function.update_same, Option.getD_some, if_pos h]
    · intro h
      rw [get_loop_adjust_state, key_in, Function.update_same, Option.getD_some, if_neg h]
  constructor
  · constructor
    · intro h
      rw [get_loop_adjust_state, loop_out_adjust hv hl, Function.update_same,
        Option.getD_some, if_pos h]
    · intro h
      rw [get_loop_adjust_state, loop_out_adjust hv hl, Function.update_same,
        Option.getD_some, if_neg h]
  · intro h0
    have hne : get_loop_adjust_state s (channel_to_deck s c) ≠ loop_modifiers_adjust_in := by
      rw [h0]; decide
    have h1 : get_loop_adjust_state (loop_in e c v s).1 (channel_to_deck s c) =
        loop_modifiers_adjust_in := by
      rw [get_loop_adjust_state, key_in, Function.update_same, Option.getD_some, if_neg hne]
    constructor
    · have key2 := loop_in_adjust (s := (loop_in e c v s).1) (e := e) (c := c) hv hl2
      rw [hdeck] at key2
      rw [get_loop_adjust_state, key2, Function.update_same, Option.getD_some, if_pos h1]
    · have key2 := loop_out_adjust (s := (loop_in e c v s).1) (e := e) (c := c) hv hl2
      rw [hdeck] at key2
      have hne2 : get_loop_adjust_state (loop_in e c v s).1 (channel_to_deck s c) ≠
          loop_modifiers_adjust_out := by rw [h1]; decide
      rw [get_loop_adjust_state, key2, Function.update_same, Option.getD_some, if_neg hne2]

/-- Witness for C7: initial state, channel 0, an engine reporting an active
loop everywhere, press value 0x7F. -/
theorem C7_loop_adjust_toggle_witness :
    get_loop_adjust_state (loop_in engine1 0 127 init_state).1
      (channel_to_deck init_state 0) = loop_modifiers_adjust_in ∧
    get_loop_adjust_state
      (loop_out engine1 0 127 (loop_in engine1 0 127 init_state).1).1
      (channel_to_deck init_state 0) = loop_modifiers_adjust_out :=
  ⟨(C7_loop_adjust_toggle (by decide) (by decide)).1.2 (by decide),
   ((C7_loop_adjust_toggle (by decide) (by decide)).2.2 (by decide)).2⟩

theorem run_shift_cons {e : Engine} {s : State} {c : Fin 2} {p : Bool} {t : Nat}
    {rest : List (Fin 2 × Bool × Nat)} :
    run_shift e s ((c, p, t) :: rest) =
      ((run_shift e (set_shift_button_pressed e c p t s).1 rest).1,
       (set_shift_button_pressed e c p t s).2.2 ::
         (run_shift e (set_shift_button_pressed e c p t s).1 rest).2) := rfl

theorem shift_press_far {e : Engine} {c : Fin 2} {n : Nat} {s : State}
    (h : ¬((n : Int) - (get_last_shift_time s c : Int) < (times_double_press : Int))) :
    (set_shift_button_pressed e c true n s).2.2 = false ∧
    (set_shift_button_pressed e c true n s).1.shift_double c = some false ∧
    (set_shift_button_pressed e c true n s).1.shift_time c = some n ∧
    (set_shift_button_pressed e c true n s).1.last_shift_button_pressed = c := by
  simp only [set_shift_button_pressed]
  split_ifs <;>
    refine ⟨rfl, ?_, ?_, rfl⟩ <;>
    simp_all [get_last_shift_time, update_fx_light, set_indicator, Function.update_same] <;>
    (exfalso; omega)

theorem shift_press_near {e : Engine} {c : Fin 2} {n : Nat} {s : State}
    (h : (n : Int) - (get_last_shift_time s c : Int) < (times_double_press : Int)) :
    (set_shift_button_pressed e c true n s).2.2 = false ∧
    (set_shift_button_pressed e c true n s).1.shift_double c = some true ∧
    (set_shift_button_pressed e c true n s).1.shift_time c = s.shift_time c ∧
    (set_shift_button_pressed e c true n s).1.last_shift_button_pressed = c := by
  simp only [set_shift_button_pressed]
  split_ifs <;>
    refine ⟨rfl, ?_, ?_, rfl⟩ <;>
    simp_all [get_last_shift_time, update_fx_light, set_indicator, Function.update_same] <;>
    (exfalso; omega)

theorem shift_release_nodouble {e : Engine} {c : Fin 2} {n : Nat} {s : State}
    (h : get_shift_double s c = false) :
    (set_shift_button_pressed e c false n s).2.2 = false ∧
    (set_shift_button_pressed e c false n s).1.shift_double c = s.shift_double c ∧
    (set_shift_button_pressed e c false n s).1.shift_time c = s.shift_time c ∧
    (set_shift_button_pressed e c false n s).1.last_shift_button_pressed = c := by
  simp only [set_shift_button_pressed]
  split_ifs <;>
    first
      | exact ⟨rfl, rfl, rfl, rfl⟩
      | simp_all [get_shift_double, update_fx_light, set_indicator]

theorem shift_release_fire {e : Engine} {c : Fin 2} {n : Nat} {s : State}
    (hP : (n : Int) - (get_last_shift_time s c : Int) < (times_double_press : Int))
    (hd : get_shift_double s c = true) :
    (set_shift_button_pressed e c false n s).2.2 = true ∧
    (set_shift_button_pressed e c false n s).1.shift_double c = s.shift_double c ∧
    (set_shift_button_pressed e c false n s).1.shift_time c = s.shift_time c ∧
    (set_shift_button_pressed e c false n s).1.last_shift_button_pressed = c := by
  simp only [set_shift_button_pressed, shift_double_press]
  split_ifs <;>
    first
      | refine ⟨rfl, ?_, ?_, ?_⟩ <;>
          first
            | exact (congrFun (gateway_frame.1).sd c).trans rfl
            | exact (congrFun (gateway_frame.1).stt c).trans rfl
            | exact ((gateway_frame.1).lsp).trans rfl
      | simp_all [get_shift_double, get_last_shift_time, update_fx_light, set_indicator] <;>
          (exfalso; omega)

theorem run_double_press_fires_once (e : Engine) (T : Nat) (hT : 290 ≤ T) :
    (run_shift e init_state
      [(0, true, T), (0, false, T + 100), (0, true, T + 150), (0, false, T + 200)]).2 =
      [false, false, false, true] := by
  have h1 : ¬((T : Int) - (get_last_shift_time init_state 0 : Int) <
      (times_double_press : Int)) := by
    simp [get_last_shift_time, init_state, times_double_press]
    omega
  obtain ⟨f1, d1, t1, l1⟩ :=
    shift_press_far (e := e) (c := 0) (n := T) (s := init_state) h1
  set s1 := (set_shift_button_pressed e 0 true T init_state).1 with hs1
  have hd1 : get_shift_double s1 0 = false := by rw [get_shift_double, d1]; rfl
  obtain ⟨f2, d2, t2, l2⟩ :=
    shift_release_nodouble (e := e) (n := T + 100) (s := s1) hd1
  set s2 := (set_shift_button_pressed e 0 false (T + 100) s1).1 with hs2
  have ht2 : get_last_shift_time s2 0 = T := by
    rw [get_last_shift_time, t2, t1]; rfl
  have h3 : ((T + 150 : Nat) : Int) - (get_last_shift_time s2 0 : Int) <
      (times_double_press : Int) := by
    rw [ht2]; simp [times_double_press]
  obtain ⟨f3, d3, t3, l3⟩ :=
    shift_press_near (e := e) (c := 0) (n := T + 150) (s := s2) h3
  set s3 := (set_shift_button_pressed e 0 true (T + 150) s2).1 with hs3
  have ht3 : get_last_shift_time s3 0 = T := by
    rw [get_last_shift_time, t3, t2, t1]; rfl
  have h4 : ((T + 200 : Nat) : Int) - (get_last_shift_time s3 0 : Int) <
      (times_double_press : Int) := by
    rw [ht3]; simp [times_double_press]
  have hd3 : get_shift_double s3 0 = true := by rw [get_shift_double, d3]; rfl
  obtain ⟨f4, _, _, _⟩ :=
    shift_release_fire (e := e) (n := T + 200) (s := s3) h4 hd3
  simp only [run_shift]
  rw [← hs1, ← hs2, ← hs3]
  rw [f1, f2, f3, f4]

theorem run_far_presses_never_fire (e : Engine) (c : Fin 2) (t1 t2 t3 t4 : Nat)
    (ha : 290 ≤ t1) (hb : t1 + 290 < t3) :
    (run_shift e init_state
      [(c, true, t1), (c, false, t2), (c, true, t3), (c, false, t4)]).2 =
      [false, false, false, false] := by
  have h1 : ¬((t1 : Int) - (get_last_shift_time init_state c : Int) <
      (times_double_press : Int)) := by
    simp [get_last_shift_time, init_state, times_double_press]
    omega
  obtain ⟨f1, d1, tt1, l1⟩ :=
    shift_press_far (e := e) (c := c) (n := t1) (s := init_state) h1
  set s1 := (set_shift_button_pressed e c true t1 init_state).1 with hs1
  have hd1 : get_shift_double s1 c = false := by rw [get_shift_double, d1]; rfl
  obtain ⟨f2, d2, tt2, l2⟩ :=
    shift_release_nodouble (e := e) (n := t2) (s := s1) hd1
  set s2 := (set_shift_button_pressed e c false t2 s1).1 with hs2
  have ht2 : get_last_shift_time s2 c = t1 := by
    rw [get_last_shift_time, tt2, tt1]; rfl
  have h3 : ¬((t3 : Int) - (get_last_shift_time s2 c : Int) <
      (times_double_press : Int)) := by
    rw [ht2]; simp [times_double_press]; omega
  obtain ⟨f3, d3, tt3, l3⟩ :=
    shift_press_far (e := e) (c := c) (n := t3) (s := s2) h3
  set s3 := (set_shift_button_pressed e c true t3 s2).1 with hs3
  have hd3 : get_shift_double s3 c = false := by rw [get_shift_double, d3]; rfl
  obtain ⟨f4, _, _, _⟩ :=
    shift_release_nodouble (e := e) (n := t4) (s := s3) hd3
  simp only [run_shift]
  rw [← hs1, ← hs2, ← hs3]
  rw [f1, f2, f3, f4]

set_option maxRecDepth 40000 in
theorem six_edge_run_fires : (run_shift engine0 init_state
    [(0, true, 1000), (0, false, 1100), (0, true, 1150), (0, false, 1200),
     (0, true, 1250), (0, false, 1280)]).2 =
    [false, false, false, true, false, true] := by decide

set_option maxRecDepth 40000 in
theorem four_edge_run_pending : (run_shift engine0 init_state
    [(0, true, 1000), (0, false, 1100), (0, true, 1150), (0, false, 1200)]).1.shift_double 0
    = some true := by decide

/-- Counterexample to claim C6 as stated: in the concrete run with edges at
1000/1100/1150/1200/1250/1280 ms the double-press action fires at the
fourth edge yet the pending flag is still set afterwards, and the third
press (1250, within the 290 ms window of both earlier presses) makes the
action fire a second time at the sixth edge. -/
theorem C6_third_press_counterexample :
    ((run_shift engine0 init_state
      [(0, true, 1000), (0, false, 1100), (0, true, 1150), (0, false, 1200),
       (0, true, 1250), (0, false, 1280)]).2 =
      [false, false, false, true, false, true]) ∧
    ((run_shift engine0 init_state
      [(0, true, 1000), (0, false, 1100), (0, true, 1150), (0, false, 1200),
       (0, true, 1250), (0, false, 1280)]).2.count true = 2) ∧
    (1250 : Nat) - 1000 < 290 ∧ (1250 : Nat) - 1150 < 290 ∧
    ((run_shift engine0 init_state
      [(0, true, 1000), (0, false, 1100), (0, true, 1150), (0, false, 1200)]).1.shift_double 0
      = some true) :=
  ⟨six_edge_run_fires, by rw [six_edge_run_fires]; decide, by decide, by decide,
   four_edge_run_pending⟩

theorem release_preserves_pending :
    ∀ (e : Engine) (c : Fin 2) (now : Nat) (s : State),
      (set_shift_button_pressed e c false now s).1.shift_double = s.shift_double ∧
      (set_shift_button_pressed e c false now s).1.shift_time = s.shift_time := by
  intro e c now s
  simp only [set_shift_button_pressed, shift_double_press]
  split_ifs <;> constructor <;>
    first
      | exact rfl
      | exact ((gateway_frame.1).sd).trans rfl
      | exact ((gateway_frame.1).stt).trans rfl
      | simp_all

set_option maxRecDepth 8000 in
/-- Claim C10: `last_shift_button_pressed` is assigned the event's channel
on every shift edge, release edges included; after pressing channel 0,
pressing (and holding) channel 1, then releasing channel 0, the shared cell
is 0 while channel 1 is still held, and the effect deck derived from it
switches back to channel 0's deck on that release edge. -/
theorem C10_last_active_channel :
    (∀ (e : Engine) (c : Fin 2) (p : Bool) (now : Nat) (s : State),
      (set_shift_button_pressed e c p now s).1.last_shift_button_pressed = c) ∧
    ((run_shift engine0 init_state
        [(0, true, 1000), (1, true, 1050), (0, false, 1100)]).1.last_shift_button_pressed
        = 0 ∧
     (run_shift engine0 init_state
        [(0, true, 1000), (1, true, 1050), (0, false, 1100)]).1.shift_button_pressed 1
        = true ∧
     get_effect_deck (run_shift engine0 init_state
        [(0, true, 1000), (1, true, 1050), (0, false, 1100)]).1 = 0 ∧
     get_effect_deck (run_shift engine0 init_state
        [(0, true, 1000), (1, true, 1050)]).1 = 1) := by
  constructor
  · intro e c p now s
    simp only [set_shift_button_pressed, shift_double_press]
    split_ifs <;>
      first
        | rfl
        | exact ((gateway_frame.1).lsp).trans rfl
  · refine ⟨?_, ?_, ?_, ?_⟩ <;> decide


/-- Claim C5: with the 290 ms window and the debouncer in its initial
state, press/release at T and T+100 followed by press/release at T+150 and
T+200 (any real clock origin T at least one window after the zero default
timestamp) fires the double-press action exactly once, at the second
release; two press/release pairs whose presses are more than the window
apart never fire it. -/
theorem C5_double_press_window :
    (∀ (e : Engine) (T : Nat), 290 ≤ T →
      (run_shift e init_state
        [(0, true, T), (0, false, T + 100), (0, true, T + 150), (0, false, T + 200)]).2 =
        [false, false, false, true]) ∧
    (∀ (e : Engine) (c : Fin 2) (t1 t2 t3 t4 : Nat), 290 ≤ t1 → t1 + 290 < t3 →
      (run_shift e init_state
        [(c, true, t1), (c, false, t2), (c, true, t3), (c, false, t4)]).2 =
        [false, false, false, false]) :=
  ⟨run_double_press_fires_once, run_far_presses_never_fire⟩

/-- Witness for C5 at clock origin 1000 (and a separated pair 500/900). -/
theorem C5_double_press_window_witness :
    (run_shift engine0 init_state
      [(0, true, 1000), (0, false, 1000 + 100), (0, true, 1000 + 150),
       (0, false, 1000 + 200)]).2 = [false, false, false, true] ∧
    (run_shift engine0 init_state
      [(0, true, 500), (0, false, 600), (0, true, 900), (0, false, 1000)]).2 =
      [false, false, false, false] :=
  ⟨C5_double_press_window.1 engine0 1000 (by decide),
   C5_double_press_window.2 engine0 0 500 600 900 1000 (by decide) (by decide)⟩

/-- Claim C6 (amended): firing the double-press action does NOT reset the
debouncer's pending state — a release edge never changes `shift_double` or
`shift_time` — so a third press/release pair arriving within the window of
the first press fires the action a second time (the concrete six-edge run
fires twice). -/
theorem C6_pending_not_reset :
    (∀ (e : Engine) (c : Fin 2) (now : Nat) (s : State),
      (set_shift_button_pressed e c false now s).1.shift_double = s.shift_double ∧
      (set_shift_button_pressed e c false now s).1.shift_time = s.shift_time) ∧
    ((run_shift engine0 init_state
      [(0, true, 1000), (0, false, 1100), (0, true, 1150), (0, false, 1200),
       (0, true, 1250), (0, false, 1280)]).2.count true = 2) :=
  ⟨release_preserves_pending, by rw [six_edge_run_fires]; decide⟩

/-- The channel's recorded blink-timer handle (the only timer key the
source ever writes is `loop_inout_blink`). -/
def chTimer (s : State) (c : Fin 2) : Option Nat :=
  lookupKey (s.timers c) "loop_inout_blink"

def tlist : Option Nat → List (String × Nat)
  | none => []
  | some h => [("loop_inout_blink", h)]

def actOf (c : Fin 2) : Option Nat → List (Fin 2 × Nat)
  | none => []
  | some h => [(c, h)]

/-- Timer-pool invariant: each channel's timer map is empty or the single
blink entry, recorded handles are fresh-bounded and distinct across
channels, and the engine-side active timers of a channel are exactly its
recorded entry. -/
def TInv (s : State) : Prop :=
  (∀ c : Fin 2, s.timers c = tlist (chTimer s c)) ∧
  (∀ (c : Fin 2) (h : Nat), chTimer s c = some h → h < s.next_handle) ∧
  (∀ h : Nat, chTimer s 0 = some h → chTimer s 1 ≠ some h) ∧
  (∀ c : Fin 2, s.active_timers.filter (fun q => q.1 == c) = actOf c (chTimer s c))

theorem TInv_congr {s s' : State} (ht : s'.timers = s.timers)
    (ha : s'.active_timers = s.active_timers) (hn : s'.next_handle = s.next_handle)
    (h : TInv s) : TInv s' := by
  obtain ⟨h1, h2, h3, h4⟩ := h
  have hc : ∀ c, chTimer s' c = chTimer s c := fun c => by rw [chTimer, ht]; rfl
  refine ⟨fun c => ?_, fun c hh => ?_, fun hh => ?_, fun c => ?_⟩
  · rw [ht, hc]; exact h1 c
  · rw [hc, hn]; exact h2 c hh
  · rw [hc, hc]; exact h3 hh
  · rw [ha, hc]; exact h4 c

theorem filter_swap {α : Type} (l : List α) (p q : α → Bool) :
    (l.filter p).filter q = (l.filter q).filter p := by
  simp [List.filter_filter, Bool.and_comm]

theorem TInv_stop_blink {s : State} {c : Fin 2} (h : TInv s) :
    TInv (stop_blink s c).1 ∧ chTimer (stop_blink s c).1 c = none ∧
      (stop_blink s c).1.next_handle = s.next_handle := by
  obtain ⟨h1, h2, h3, h4⟩ := h
  cases hl : lookupKey (s.timers c) "loop_inout_blink" with
  | none =>
      have hs : stop_blink s c = (s, []) := by simp only [stop_blink, hl]
      rw [hs]
      exact ⟨⟨h1, h2, h3, h4⟩, hl, rfl⟩
  | some hd =>
      have hs : stop_blink s c =
          ({ s with
              timers := (Function.update s.timers c
                (removeKey (s.timers c) "loop_inout_blink")),
              active_timers := s.active_timers.filter (fun q => !(q.2 == hd)) },
           [Ev.stopTimer c hd]) := by simp only [stop_blink, hl]
      rw [hs]
      dsimp only
      have htc : s.timers c = [("loop_inout_blink", hd)] := by
        have hz := h1 c
        rw [chTimer, hl] at hz
        simpa [tlist] using hz
      have hrk : removeKey (s.timers c) "loop_inout_blink" = [] := by
        rw [htc]; rfl
      have hch : ∀ i : Fin 2,
          chTimer { s with
              timers := (Function.update s.timers c
                (removeKey (s.timers c) "loop_inout_blink")),
              active_timers := s.active_timers.filter (fun q => !(q.2 == hd)) } i =
            (if i = c then none else chTimer s i) := by
        intro i
        by_cases hic : i = c
        · subst hic
          rw [if_pos rfl]
          show lookupKey (Function.update s.timers i
            (removeKey (s.timers i) "loop_inout_blink") i) "loop_inout_blink" = none
          rw [Function.update_same, hrk]
          rfl
        · rw [if_neg hic]
          show lookupKey (Function.update s.timers c
            (removeKey (s.timers c) "loop_inout_blink") i) "loop_inout_blink" =
            chTimer s i
          rw [Function.update_noteq hic]
          rfl
      refine ⟨⟨?_, ?_, ?_, ?_⟩, ?_, rfl⟩
      · intro i
        rw [hch i]
        by_cases hic : i = c
        · subst hic
          show Function.update s.timers i (removeKey (s.timers i) "loop_inout_blink") i =
            tlist (if i = i then none else chTimer s i)
          rw [Function.update_same, hrk, if_pos rfl]
          rfl
        · show Function.update s.timers c (removeKey (s.timers c) "loop_inout_blink") i =
            tlist (if i = c then none else chTimer s i)
          rw [Function.update_noteq hic, if_neg hic]
          exact h1 i
      · intro i hh hheq
        rw [hch i] at hheq
        by_cases hic : i = c
        · rw [if_pos hic] at hheq
          exact absurd hheq (by simp)
        · rw [if_neg hic] at hheq
          exact h2 i hh hheq
      · intro hh h0
        rw [hch 0] at h0
        rw [hch 1]
        by_cases hc0 : (0 : Fin 2) = c
        · rw [if_pos hc0] at h0
          exact absurd h0 (by simp)
        · rw [if_neg hc0] at h0
          have hc1 : (1 : Fin 2) = c := by
            fin_cases c <;> simp_all
          rw [if_pos hc1]
          simp
      · intro i
        show (s.active_timers.filter (fun q => !(q.2 == hd))).filter (fun q => q.1 == i) =
          actOf i (chTimer _ i)
        rw [hch i, filter_swap, h4 i]
        by_cases hic : i = c
        · subst hic
          rw [if_pos rfl]
          have hci : chTimer s i = some hd := hl
          rw [hci]
          simp [actOf]
        · rw [if_neg hic]
          cases hci : chTimer s i with
          | none => simp [actOf]
          | some h2v =>
              have h01 : ∀ a b : Fin 2, a ≠ b → (a = 0 ∧ b = 1) ∨ (a = 1 ∧ b = 0) := by
                decide
              have hne : h2v ≠ hd := by
                rcases h01 i c hic with ⟨hi0, hc1⟩ | ⟨hi1, hc0⟩
                · subst hi0
                  subst hc1
                  intro heq
                  apply h3 h2v hci
                  rw [heq]
                  exact hl
                · subst hi1
                  subst hc0
                  intro heq
                  apply h3 hd hl
                  rw [← heq]
                  exact hci
              simp [actOf, hne]
      · rw [hch c, if_pos rfl]

theorem TInv_begin_blink {s : State} {c : Fin 2} {p : Nat} (h : TInv s)
    (hc : chTimer s c = none) : TInv (begin_timer s c "loop_inout_blink" p).1 := by
  obtain ⟨h1, h2, h3, h4⟩ := h
  have htc : s.timers c = [] := by
    have hz := h1 c
    rw [hc] at hz
    simpa [tlist] using hz
  have hsk : setKey (s.timers c) "loop_inout_blink" s.next_handle =
      [("loop_inout_blink", s.next_handle)] := by
    rw [htc]; rfl
  simp only [begin_timer]
  have hch : ∀ i : Fin 2,
      chTimer { s with
          timers := Function.update s.timers c
            (setKey (s.timers c) "loop_inout_blink" s.next_handle),
          active_timers := (c, s.next_handle) :: s.active_timers,
          next_handle := s.next_handle + 1 } i =
        (if i = c then some s.next_handle else chTimer s i) := by
    intro i
    by_cases hic : i = c
    · subst hic
      rw [if_pos rfl]
      show lookupKey (Function.update s.timers i
        (setKey (s.timers i) "loop_inout_blink" s.next_handle) i) "loop_inout_blink" =
        some s.next_handle
      rw [Function.update_same, hsk]
      rfl
    · rw [if_neg hic]
      show lookupKey (Function.update s.timers c
        (setKey (s.timers c) "loop_inout_blink" s.next_handle) i) "loop_inout_blink" =
        chTimer s i
      rw [Function.update_noteq hic]
      rfl
  refine ⟨?_, ?_, ?_, ?_⟩
  · intro i
    rw [hch i]
    by_cases hic : i = c
    · subst hic
      show Function.update s.timers i
        (setKey (s.timers i) "loop_inout_blink" s.next_handle) i =
        tlist (if i = i then some s.next_handle else chTimer s i)
      rw [Function.update_same, hsk, if_pos rfl]
      rfl
    · show Function.update s.timers c
        (setKey (s.timers c) "loop_inout_blink" s.next_handle) i =
        tlist (if i = c then some s.next_handle else chTimer s i)
      rw [Function.update_noteq hic, if_neg hic]
      exact h1 i
  · intro i hh hheq
    rw [hch i] at hheq
    show hh < s.next_handle + 1
    by_cases hic : i = c
    · rw [if_pos hic] at hheq
      have : hh = s.next_handle := by simpa using hheq.symm
      omega
    · rw [if_neg hic] at hheq
      have := h2 i hh hheq
      omega
  · intro hh h0
    rw [hch 0] at h0
    rw [hch 1]
    by_cases hc0 : (0 : Fin 2) = c
    · have hc1 : ¬((1 : Fin 2) = c) := by
        rw [← hc0]; decide
      rw [if_pos hc0] at h0
      rw [if_neg hc1]
      have hh_eq : hh = s.next_handle := by simpa using h0.symm
      intro hcontra
      have := h2 1 hh hcontra
      omega
    · have hc1 : (1 : Fin 2) = c := by
        fin_cases c
        · exact absurd rfl hc0
        · rfl
      rw [if_neg hc0] at h0
      rw [if_pos hc1]
      have := h2 0 hh h0
      intro hcontra
      have hx : s.next_handle = hh := by simpa using hcontra
      omega
  · intro i
    rw [hch i]
    by_cases hic : i = c
    · subst hic
      rw [if_pos rfl]
      show List.filter (fun q => q.1 == i) ((i, s.next_handle) :: s.active_timers) =
        actOf i (some s.next_handle)
      rw [List.filter_cons]
      simp only [beq_self_eq_true, if_pos]
      rw [h4 i, hc]
      rfl
    · rw [if_neg hic]
      show List.filter (fun q => q.1 == i) ((c, s.next_handle) :: s.active_timers) =
        actOf i (chTimer s i)
      rw [List.filter_cons]
      have : ((c, s.next_handle).1 == i) = false := by
        simp
        exact fun hh => hic hh.symm
      rw [this]
      simp only [Bool.false_eq_true, if_false]
      exact h4 i

theorem TInv_stop_begin {s : State} {c : Fin 2} {p : Nat} (h : TInv s) :
    TInv (begin_timer (stop_blink s c).1 c "loop_inout_blink" p).1 :=
  TInv_begin_blink (TInv_stop_blink h).1 (TInv_stop_blink h).2.1

theorem TInv_update_loop {e : Engine} {c : Fin 2} {s : State} (h : TInv s) :
    TInv (update_loop_inout_lights e c s).1 := by
  simp only [update_loop_inout_lights]
  split
  · exact TInv_congr rfl rfl rfl (TInv_stop_blink h).1
  · split
    · split
      · exact h
      · exact TInv_congr rfl rfl rfl (TInv_stop_begin (p := times_loop_adjust) h)
    · split
      · split
        · exact h
        · exact TInv_congr rfl rfl rfl (TInv_stop_begin (p := times_loop_adjust) h)
      · split
        · exact h
        · exact TInv_congr rfl rfl rfl (TInv_stop_begin (p := times_loop_active) h)

theorem TInv_set_indicator {s : State} {c : Fin 2} {k : String} {v : Nat}
    (h : TInv s) : TInv (set_indicator s c k v) :=
  TInv_congr rfl rfl rfl h

theorem TInv_set_loop_adjust {e : Engine} {d st : Nat} {s : State} (h : TInv s) :
    TInv (set_loop_adjust_state e d st s).1 := by
  simp only [set_loop_adjust_state]
  split
  · exact TInv_update_loop (TInv_congr rfl rfl rfl h)
  · exact TInv_congr rfl rfl rfl h

theorem TInv_set_loop_enabled {e : Engine} {v : Nat} {g : String} {s : State}
    (h : TInv s) : TInv (set_loop_enabled e v g s).1 := by
  simp only [set_loop_enabled]
  split
  · exact TInv_set_indicator (TInv_set_loop_adjust h)
  · exact TInv_set_loop_adjust h

theorem TInv_fire_output {e : Engine} {k g : String} {v : Nat} {s : State}
    (h : TInv s) : TInv (fire_output e k g v s).1 := by
  simp only [fire_output]
  split
  · exact TInv_set_loop_enabled h
  · split
    · exact TInv_set_indicator h
    · exact h

theorem TInv_connect_step {e : Engine} {c : Fin 2} {d : Nat} {s : State}
    {a : String × Bool} (h : TInv s) : TInv (connect_step e c d s a).1 := by
  simp only [connect_step]
  split
  · exact TInv_fire_output (TInv_congr rfl rfl rfl h)
  · exact TInv_congr rfl rfl rfl h

theorem TInv_update_sampler {v : Nat} {g : String} {s : State} (h : TInv s) :
    TInv (update_sampler v g s) := by
  simp only [update_sampler]
  split <;> split <;>
    first
      | exact TInv_set_indicator (TInv_set_indicator h)
      | exact TInv_set_indicator h
      | exact h

theorem TInv_sampler_step {e : Engine} {c : Fin 2} {s : State} {g : String}
    (h : TInv s) : TInv (sampler_step e c s g).1 :=
  TInv_update_sampler (TInv_congr rfl rfl rfl h)

theorem TInv_foldSteps {α : Type} {f : State → α → State × List Ev}
    (hf : ∀ s a, TInv s → TInv (f s a).1) :
    ∀ (l : List α) (s : State), TInv s → TInv (foldSteps f s l).1 := by
  intro l
  induction l with
  | nil => intro s h; exact h
  | cons a rest ih => intro s h; exact ih (f s a).1 (hf s a h)

theorem TInv_connect_channel {e : Engine} {c : Fin 2} {s : State} (h : TInv s) :
    TInv (connect_channel e c s).1 := by
  simp only [connect_channel]
  refine TInv_congr rfl rfl rfl ?_
  exact TInv_foldSteps (fun s a hh => TInv_sampler_step hh) _ _
    (TInv_foldSteps (fun s a hh => TInv_connect_step hh) _ _ h)

theorem TInv_disconnect {c : Fin 2} {s : State} (h : TInv s) :
    TInv (disconnect_channel c s).1 ∧
    chTimer (disconnect_channel c s).1 c = none ∧
    (disconnect_channel c s).1.connections c = [] ∧
    ((disconnect_channel c s).1.active_timers.filter (fun q => q.1 == c)) = [] ∧
    (disconnect_channel c s).1.next_handle = s.next_handle := by
  have hti : TInv (disconnect_channel c s).1 := by
    obtain ⟨h1, h2, h3, h4⟩ := h
    cases hl : chTimer s c with
    | none =>
        have htc : s.timers c = [] := by
          have hz := h1 c
          rw [hl] at hz
          simpa [tlist] using hz
        refine TInv_congr ?_ ?_ ?_ ⟨h1, h2, h3, h4⟩
        · show Function.update s.timers c [] = s.timers
          rw [← htc, Function.update_eq_self]
        · show List.filter _ s.active_timers = s.active_timers
          rw [htc]
          refine List.filter_eq_self.mpr (fun a _ => ?_)
          simp [List.contains]
        · rfl
    | some hd =>
        have htc : s.timers c = [("loop_inout_blink", hd)] := by
          have hz := h1 c
          rw [hl] at hz
          simpa [tlist] using hz
        have hsb : stop_blink s c =
            ({ s with
                timers := (Function.update s.timers c
                  (removeKey (s.timers c) "loop_inout_blink")),
                active_timers := s.active_timers.filter (fun q => !(q.2 == hd)) },
             [Ev.stopTimer c hd]) := by
          simp only [stop_blink]
          rw [show lookupKey (s.timers c) "loop_inout_blink" = some hd from hl]
        refine TInv_congr ?_ ?_ ?_ (TInv_stop_blink (c := c) ⟨h1, h2, h3, h4⟩).1
        · show Function.update s.timers c [] = (stop_blink s c).1.timers
          rw [hsb]
          show Function.update s.timers c [] =
            Function.update s.timers c (removeKey (s.timers c) "loop_inout_blink")
          rw [htc]
          rfl
        · show List.filter _ s.active_timers = (stop_blink s c).1.active_timers
          rw [hsb]
          show List.filter _ s.active_timers = List.filter (fun q => !(q.2 == hd)) s.active_timers
          refine List.filter_congr (fun a _ => ?_)
          rw [htc]
          simp only [List.map_cons, List.map_nil, List.contains_cons, List.contains_nil,
            Bool.or_false]
        · rw [hsb]
          exact rfl
  refine ⟨hti, ?_, ?_, ?_, rfl⟩
  · show lookupKey ((disconnect_channel c s).1.timers c) "loop_inout_blink" = none
    show lookupKey (Function.update s.timers c [] c) "loop_inout_blink" = none
    rw [Function.update_same]
    rfl
  · simp only [disconnect_channel]
    try dsimp only
    rw [Function.update_same]
  · have h4d := hti.2.2.2 c
    have hcd : chTimer (disconnect_channel c s).1 c = none := by
      show lookupKey (Function.update s.timers c [] c) "loop_inout_blink" = none
      rw [Function.update_same]
      rfl
    rw [hcd] at h4d
    exact h4d

theorem TInv_toggle {e : Engine} {c : Fin 2} {s : State} (h : TInv s) :
    TInv (toggle_deck_channel e c s).1 := by
  simp only [toggle_deck_channel]
  split
  · exact h
  · exact TInv_connect_channel (TInv_congr rfl rfl rfl (TInv_disconnect h).1)

theorem TInv_gateway {e : Engine} {c : Fin 2} {s : State} (h : TInv s) :
    TInv (toggle_deck_channel_gateway e c s).1 := by
  unfold toggle_deck_channel_gateway always_toggle_both
  simp only [Bool.false_eq_true, if_false]
  exact TInv_toggle h

theorem TInv_loop_in {e : Engine} {c : Fin 2} {v : Nat} {s : State} (h : TInv s) :
    TInv (loop_in e c v s).1 := by
  simp only [loop_in]
  split
  · exact h
  · split
    · split <;> exact TInv_set_loop_adjust h
    · exact h

theorem TInv_loop_out {e : Engine} {c : Fin 2} {v : Nat} {s : State} (h : TInv s) :
    TInv (loop_out e c v s).1 := by
  simp only [loop_out]
  split
  · exact h
  · split
    · split <;> exact TInv_set_loop_adjust h
    · exact h

theorem TInv_shift {e : Engine} {c : Fin 2} {p : Bool} {now : Nat} {s : State}
    (h : TInv s) : TInv (set_shift_button_pressed e c p now s).1 := by
  simp only [set_shift_button_pressed, shift_double_press]
  split_ifs <;>
    first
      | exact TInv_congr rfl rfl rfl h
      | exact TInv_gateway (TInv_congr rfl rfl rfl h)

theorem TInv_beatjump {e : Engine} {c : Fin 2} {n : Nat} {s : State} (h : TInv s) :
    TInv (handle_beatjump_shift e c n s).1 := by
  simp only [handle_beatjump_shift]
  split
  · exact TInv_gateway h
  · split
    · exact h
    · split
      · exact h
      · split
        · exact TInv_congr rfl rfl rfl h
        · split
          · exact TInv_congr rfl rfl rfl h
          · exact h

theorem reach_TInv {s : State} (h : ReachP (fun _ => True) s) : TInv s := by
  induction h with
  | init =>
      refine ⟨fun c => rfl, fun c hh hheq => ?_, fun hh hheq => ?_, fun c => rfl⟩
      · simp [chTimer, init_state, lookupKey] at hheq
      · simp [chTimer, init_state, lookupKey] at hheq
  | gateway e c hP _ ih => exact TInv_gateway ih
  | shift_edge e c p now hP _ ih => exact TInv_shift ih
  | lin e c v hP _ ih => exact TInv_loop_in ih
  | lout e c v hP _ ih => exact TInv_loop_out ih
  | loop_cb e v g hP _ ih => exact TInv_set_loop_enabled ih
  | relight e c hP _ ih => exact TInv_update_loop ih
  | beatjump e c n hP _ ih => exact TInv_beatjump ih
  | conn_ch e c hP _ ih => exact TInv_connect_channel ih
  | disc_ch c _ ih => exact (TInv_disconnect ih).1

theorem update_loop_stops_first {e : Engine} {c : Fin 2} {s : State} {h : Nat}
    (hl : lookupKey (s.timers c) "loop_inout_blink" = some h) :
    (update_loop_inout_lights e c s).2 = [] ∨
    ∃ tl, (update_loop_inout_lights e c s).2 = Ev.stopTimer c h :: tl := by
  have hsb : (stop_blink s c).2 = [Ev.stopTimer c h] := by
    simp only [stop_blink, hl]
  simp only [update_loop_inout_lights]
  split
  · right
    exact ⟨[], by rw [hsb]⟩
  · split
    · split
      · left; rfl
      · right
        refine ⟨(begin_timer (stop_blink s c).1 c "loop_inout_blink" times_loop_adjust).2, ?_⟩
        rw [hsb]
        rfl
    · split
      · split
        · left; rfl
        · right
          refine ⟨(begin_timer (stop_blink s c).1 c "loop_inout_blink" times_loop_adjust).2, ?_⟩
          rw [hsb]
          rfl
      · split
        · left; rfl
        · right
          refine ⟨(begin_timer (stop_blink s c).1 c "loop_inout_blink" times_loop_active).2, ?_⟩
          rw [hsb]
          rfl

/-- Claim C8: in every reachable state each channel has at most one active
blink timer; whenever `update_loop_inout_lights` re-arms while a timer is
recorded, its first engine call is stopping that timer; and the disconnect
phase of a rebind leaves the channel with no active timers and an empty
timer map (before `connect_channel` can arm a new one). -/
theorem C8_timer_singularity :
    (∀ s : State, ReachP (fun _ => True) s → ∀ c : Fin 2,
      (s.active_timers.filter (fun q => q.1 == c)).length ≤ 1) ∧
    (∀ (e : Engine) (c : Fin 2) (s : State) (h : Nat),
      lookupKey (s.timers c) "loop_inout_blink" = some h →
      (update_loop_inout_lights e c s).2 = [] ∨
      ∃ tl, (update_loop_inout_lights e c s).2 = Ev.stopTimer c h :: tl) ∧
    (∀ s : State, ReachP (fun _ => True) s → ∀ c : Fin 2,
      ((disconnect_channel c s).1.active_timers.filter (fun q => q.1 == c)) = [] ∧
      (disconnect_channel c s).1.timers c = []) := by
  refine ⟨fun s hs c => ?_, fun e c s h hl => update_loop_stops_first hl,
    fun s hs c => ?_⟩
  · have h4 := (reach_TInv hs).2.2.2 c
    rw [h4]
    cases chTimer s c <;> simp [actOf]
  · refine ⟨(TInv_disconnect (reach_TInv hs)).2.2.2.1, ?_⟩
    show Function.update s.timers c [] c = []
    rw [Function.update_same]

/-- Witness for C8 at the initial state and at a state with an armed blink
timer (the initial state relit against an engine with a loop active). -/
theorem C8_timer_singularity_witness :
    (init_state.active_timers.filter (fun q => q.1 == (0 : Fin 2))).length ≤ 1 ∧
    ((update_loop_inout_lights engine1 0
        (update_loop_inout_lights engine1 0 init_state).1).2 = [] ∨
      ∃ tl, (update_loop_inout_lights engine1 0
        (update_loop_inout_lights engine1 0 init_state).1).2 =
          Ev.stopTimer 0 0 :: tl) ∧
    ((disconnect_channel 0 init_state).1.active_timers.filter
      (fun q => q.1 == (0 : Fin 2))) = [] :=
  ⟨C8_timer_singularity.1 init_state ReachP.init 0,
   C8_timer_singularity.2.1 engine1 0 (update_loop_inout_lights engine1 0 init_state).1 0
     (by decide),
   (C8_timer_singularity.2.2 init_state ReachP.init 0).1⟩

/-- Teardown calls of a rebind: stopping a timer, releasing a connection,
arming a soft-takeover guard. -/
def IsTeardownEv : Ev → Bool
  | Ev.stopTimer _ _ => true
  | Ev.disc _ _ => true
  | Ev.soft _ _ => true
  | _ => false

/-- Setup calls of a rebind: registering a connection, triggering it,
arming a timer. -/
def IsSetupEv : Ev → Bool
  | Ev.conn _ _ _ _ => true
  | Ev.trig _ _ _ _ => true
  | Ev.beginTimer _ _ _ _ => true
  | _ => false

theorem lookup_setKey_same {α : Type} {l : List (String × α)} {k : String} {v : α} :
    lookupKey (setKey l k v) k = some v := by
  simp [setKey, lookupKey]

theorem lookup_filter_ne {α : Type} {k k' : String} (h : k' ≠ k) :
    ∀ l : List (String × α),
      lookupKey (l.filter (fun p => !(p.1 == k))) k' = lookupKey l k' := by
  intro l
  have hkk : ¬(k = k') := fun hh => h hh.symm
  induction l with
  | nil => rfl
  | cons a rest ih =>
      by_cases hak : a.1 = k
      · have hk' : ¬(a.1 = k') := by rw [hak]; exact fun hh => h hh.symm
        simp [List.filter_cons, hak, lookupKey, hk', hkk, h, ih]
      · by_cases hak' : a.1 = k'
        · simp [List.filter_cons, hak, lookupKey, hak', hkk, h]
        · simp [List.filter_cons, hak, lookupKey, hak', hkk, h, ih]

theorem lookup_setKey_ne {α : Type} {l : List (String × α)} {k k' : String} {v : α}
    (h : k' ≠ k) : lookupKey (setKey l k v) k' = lookupKey l k' := by
  rw [setKey]
  show (if k = k' then some v else lookupKey (l.filter (fun p => !(p.1 == k))) k') =
    lookupKey l k'
  rw [if_neg (fun hh => h hh.symm)]
  exact lookup_filter_ne h l

theorem mem_setKey {α : Type} {l : List (String × α)} {k : String} {v : α}
    {p : String × α} (h : p ∈ setKey l k v) : p = (k, v) ∨ p ∈ l := by
  rcases List.mem_cons.mp h with h1 | h1
  · exact Or.inl h1
  · exact Or.inr (List.mem_of_mem_filter h1)

theorem group_deck_roundtrip : ∀ d : Nat, d < 4 → group_to_deck (deck_to_group d) = d := by
  intro d hd
  interval_cases d <;> decide

theorem disconnect_trace_teardown {c : Fin 2} {s : State} :
    ∀ ev ∈ (disconnect_channel c s).2, IsTeardownEv ev = true := by
  intro ev hev
  simp only [disconnect_channel, List.mem_append, List.mem_map, List.mem_cons,
    List.mem_singleton, List.not_mem_nil, or_false] at hev
  rcases hev with (⟨p, _, hp⟩ | ⟨p, _, hp⟩) | hp
  · rw [← hp]; rfl
  · rw [← hp]; rfl
  · rcases hp with h | h | h | h | h | h <;> (rw [h]; rfl)

theorem stop_blink_trace_none {s : State} {c : Fin 2}
    (h : lookupKey (s.timers c) "loop_inout_blink" = none) :
    (stop_blink s c).2 = [] := by
  simp only [stop_blink, h]

theorem update_loop_trace_shape {e : Engine} {c : Fin 2} {s : State} :
    ∀ ev ∈ (update_loop_inout_lights e c s).2,
      (∃ h, ev = Ev.stopTimer c h) ∨
      (∃ h p, ev = Ev.beginTimer c "loop_inout_blink" h p) := by
  have hsb : ∀ ev ∈ (stop_blink s c).2, ∃ h, ev = Ev.stopTimer c h := by
    intro ev hev
    simp only [stop_blink] at hev
    cases hl : lookupKey (s.timers c) "loop_inout_blink" with
    | none => rw [hl] at hev; simp at hev
    | some hd =>
        rw [hl] at hev
        simp at hev
        exact ⟨hd, hev⟩
  simp only [update_loop_inout_lights]
  split
  · exact fun ev hev => Or.inl (hsb ev hev)
  · split
    · split
      · intro ev hev; simp at hev
      · intro ev hev
        rcases List.mem_append.mp hev with h1 | h1
        · exact Or.inl (hsb ev h1)
        · right
          simp only [begin_timer, List.mem_singleton] at h1
          exact ⟨_, _, h1⟩
    · split
      · split
        · intro ev hev; simp at hev
        · intro ev hev
          rcases List.mem_append.mp hev with h1 | h1
          · exact Or.inl (hsb ev h1)
          · right
            simp only [begin_timer, List.mem_singleton] at h1
            exact ⟨_, _, h1⟩
      · split
        · intro ev hev; simp at hev
        · intro ev hev
          rcases List.mem_append.mp hev with h1 | h1
          · exact Or.inl (hsb ev h1)
          · right
            simp only [begin_timer, List.mem_singleton] at h1
            exact ⟨_, _, h1⟩

theorem update_loop_trace_none {e : Engine} {c : Fin 2} {s : State}
    (h : lookupKey (s.timers c) "loop_inout_blink" = none) :
    ∀ ev ∈ (update_loop_inout_lights e c s).2,
      ∃ hh p, ev = Ev.beginTimer c "loop_inout_blink" hh p := by
  intro ev hev
  simp only [update_loop_inout_lights] at hev
  have hsb := stop_blink_trace_none (c := c) h
  split at hev
  · rw [hsb] at hev; simp at hev
  · split at hev
    · split at hev
      · simp at hev
      · rw [hsb] at hev
        simp only [List.nil_append] at hev
        simp only [begin_timer, List.mem_singleton] at hev
        exact ⟨_, _, hev⟩
    · split at hev
      · split at hev
        · simp at hev
        · rw [hsb] at hev
          simp only [List.nil_append] at hev
          simp only [begin_timer, List.mem_singleton] at hev
          exact ⟨_, _, hev⟩
      · split at hev
        · simp at hev
        · rw [hsb] at hev
          simp only [List.nil_append] at hev
          simp only [begin_timer, List.mem_singleton] at hev
          exact ⟨_, _, hev⟩

theorem connect_step_other {e : Engine} {c : Fin 2} {d : Nat} {s : State}
    {a : String × Bool} (hk : a.1 ≠ "loop_enabled") :
    (connect_step e c d s a).1.timers = s.timers ∧
    ∀ ev ∈ (connect_step e c d s a).2, IsSetupEv ev = true := by
  have hkb : (a.1 == "loop_enabled") = false := by simp [hk]
  simp only [connect_step, fire_output, hkb, Bool.false_eq_true, if_false]
  split
  · split
    · refine ⟨rfl, ?_⟩
      intro ev hev
      simp only [List.append_nil, List.mem_cons, List.mem_singleton,
        List.not_mem_nil, or_false] at hev
      rcases hev with h | h <;> (rw [h]; rfl)
    · refine ⟨rfl, ?_⟩
      intro ev hev
      simp only [List.append_nil, List.mem_cons, List.mem_singleton,
        List.not_mem_nil, or_false] at hev
      rcases hev with h | h <;> (rw [h]; rfl)
  · refine ⟨rfl, ?_⟩
    intro ev hev
    simp only [List.mem_singleton] at hev
    rw [hev]
    rfl

theorem connect_fold_no_loopkey {e : Engine} {c : Fin 2} {d : Nat} :
    ∀ (l : List (String × Bool)) (s : State),
      l.countP (fun p => p.1 == "loop_enabled") = 0 →
      ∀ ev ∈ (foldSteps (connect_step e c d) s l).2, IsSetupEv ev = true := by
  intro l
  induction l with
  | nil => intro s _ ev hev; simp [foldSteps] at hev
  | cons a rest ih =>
      intro s hcount ev hev
      have hk : a.1 ≠ "loop_enabled" := by
        intro hh
        rw [List.countP_cons] at hcount
        simp [hh] at hcount
      simp only [foldSteps] at hev
      rcases List.mem_append.mp hev with h1 | h1
      · exact (connect_step_other hk).2 ev h1
      · refine ih (connect_step e c d s a).1 ?_ ev h1
        rw [List.countP_cons] at hcount
        omega

theorem fin2_cases : ∀ c : Fin 2, c = 0 ∨ c = 1 := by decide

theorem set_loop_enabled_trace_setup {e : Engine} {c : Fin 2} {d v : Nat} {s : State}
    (hmap : s.channel_mapping c = d) (hd4 : d < 4)
    (hcol : c = 1 → s.channel_mapping 0 ≠ d)
    (htim : lookupKey (s.timers c) "loop_inout_blink" = none) :
    ∀ ev ∈ (set_loop_enabled e v (deck_to_group d) s).2, IsSetupEv ev = true := by
  intro ev hev
  have hrt := group_deck_roundtrip d hd4
  have hact : is_deck_active
      { s with deck_loop_adjust := (Function.update s.deck_loop_adjust d
          (some loop_modifiers_none)) } d = true := by
    rcases fin2_cases c with hc | hc <;> subst hc <;>
      simp [is_deck_active, hmap]
  have hdc : deck_to_channel
      { s with deck_loop_adjust := (Function.update s.deck_loop_adjust d
          (some loop_modifiers_none)) } d = c := by
    rcases fin2_cases c with hc | hc <;> subst hc
    · show (if s.channel_mapping 0 = d then (0 : Fin 2)
        else if s.channel_mapping 1 = d then 1 else 0) = 0
      rw [if_pos hmap]
    · show (if s.channel_mapping 0 = d then (0 : Fin 2)
        else if s.channel_mapping 1 = d then 1 else 0) = 1
      rw [if_neg (hcol rfl), if_pos hmap]
  simp only [set_loop_enabled, set_loop_adjust_state, hrt, hact, if_true] at hev
  rw [hdc] at hev
  split at hev <;>
    · dsimp only at hev
      obtain ⟨hh, p, hevE⟩ := update_loop_trace_none
        (s := { s with deck_loop_adjust := (Function.update s.deck_loop_adjust d
          (some loop_modifiers_none)) }) htim ev hev
      rw [hevE]
      rfl

set_option maxHeartbeats 1600000 in
theorem connect_step_loop_setup {e : Engine} {c : Fin 2} {d : Nat} {s : State}
    {a : String × Bool} (hk : a.1 = "loop_enabled")
    (hmap : s.channel_mapping c = d) (hd4 : d < 4)
    (hcol : c = 1 → s.channel_mapping 0 ≠ d)
    (htim : lookupKey (s.timers c) "loop_inout_blink" = none) :
    ∀ ev ∈ (connect_step e c d s a).2, IsSetupEv ev = true := by
  intro ev hev
  simp only [connect_step, fire_output, hk] at hev
  simp only [beq_self_eq_true, if_true] at hev
  split at hev
  · rcases List.mem_append.mp hev with h1 | h1
    · simp only [List.mem_cons, List.mem_singleton, List.not_mem_nil, or_false] at h1
      rcases h1 with h | h <;> (rw [h]; rfl)
    · refine set_loop_enabled_trace_setup (c := c) ?_ hd4 ?_ ?_ ev h1
      · exact hmap
      · exact hcol
      · exact htim
  · simp only [List.mem_singleton] at hev
    rw [hev]
    rfl

theorem connect_fold_setup {e : Engine} {c : Fin 2} {d : Nat} :
    ∀ (l : List (String × Bool)) (s : State),
      l.countP (fun p => p.1 == "loop_enabled") ≤ 1 →
      s.channel_mapping c = d → d < 4 →
      (c = 1 → s.channel_mapping 0 ≠ d) →
      lookupKey (s.timers c) "loop_inout_blink" = none →
      ∀ ev ∈ (foldSteps (connect_step e c d) s l).2, IsSetupEv ev = true := by
  intro l
  induction l with
  | nil => intro s _ _ _ _ _ ev hev; simp [foldSteps] at hev
  | cons a rest ih =>
      intro s hcount hmap hd4 hcol htim ev hev
      simp only [foldSteps] at hev
      rcases List.mem_append.mp hev with h1 | h1
      · by_cases hk : a.1 = "loop_enabled"
        · exact connect_step_loop_setup hk hmap hd4 hcol htim ev h1
        · exact (connect_step_other hk).2 ev h1
      · by_cases hk : a.1 = "loop_enabled"
        · refine connect_fold_no_loopkey rest (connect_step e c d s a).1 ?_ ev h1
          rw [List.countP_cons] at hcount
          simp only [hk, beq_self_eq_true, if_true] at hcount
          omega
        · have hkb : (a.1 == "loop_enabled") = false := by simp [hk]
          refine ih (connect_step e c d s a).1 ?_ ?_ hd4 ?_ ?_ ev h1
          · rw [List.countP_cons, hkb] at hcount
            simpa using hcount
          · exact (congrFun (connect_step_frame (p := a)).map c).trans hmap
          · intro hc1
            rw [congrFun (connect_step_frame (p := a)).map 0]
            exact hcol hc1
          · rw [congrFun (connect_step_other hk).1 c]
            exact htim

theorem sampler_step_trace {e : Engine} {c : Fin 2} {s : State} {g : String} :
    ∀ ev ∈ (sampler_step e c s g).2, IsSetupEv ev = true := by
  intro ev hev
  simp only [sampler_step, List.mem_cons, List.mem_singleton, List.not_mem_nil,
    or_false] at hev
  rcases hev with h | h <;> (rw [h]; rfl)

theorem sampler_fold_setup {e : Engine} {c : Fin 2} :
    ∀ (gl : List String) (s : State),
      ∀ ev ∈ (foldSteps (sampler_step e c) s gl).2, IsSetupEv ev = true := by
  intro gl
  induction gl with
  | nil => intro s ev hev; simp [foldSteps] at hev
  | cons g rest ih =>
      intro s ev hev
      simp only [foldSteps] at hev
      rcases List.mem_append.mp hev with h1 | h1
      · exact sampler_step_trace ev h1
      · exact ih (sampler_step e c s g).1 ev h1

theorem connect_channel_trace_setup {e : Engine} {c : Fin 2} {s : State}
    (hd4 : channel_to_deck s c < 4)
    (hcol : c = 1 → s.channel_mapping 0 ≠ s.channel_mapping 1)
    (htim : lookupKey (s.timers c) "loop_inout_blink" = none) :
    ∀ ev ∈ (connect_channel e c s).2, IsSetupEv ev = true := by
  intro ev hev
  simp only [connect_channel] at hev
  rcases List.mem_append.mp hev with h1 | h1
  · refine connect_fold_setup output_control_to_function s (by decide) rfl hd4 ?_ htim ev h1
    intro hc1
    rw [hc1]
    exact hcol hc1
  · exact sampler_fold_setup _ _ ev h1

/-- Connection-table/timer frame for the helpers run while wiring a channel:
the subscription table is untouched, the handle counter never decreases, and
any timer added on the way carries a fresh handle. -/
structure CFrame (s s' : State) : Prop where
  conns : s'.connections = s.connections
  nh : s.next_handle ≤ s'.next_handle
  act : ∀ q ∈ s'.active_timers, q ∈ s.active_timers ∨ s.next_handle ≤ q.2

theorem CFrame_refl {s : State} : CFrame s s :=
  ⟨rfl, le_refl _, fun _ hq => Or.inl hq⟩

theorem CFrame_trans {a b c : State} (h1 : CFrame a b) (h2 : CFrame b c) :
    CFrame a c := by
  refine ⟨h2.conns.trans h1.conns, le_trans h1.nh h2.nh, ?_⟩
  intro q hq
  rcases h2.act q hq with hb | hb
  · exact h1.act q hb
  · exact Or.inr (le_trans h1.nh hb)

theorem set_indicator_cframe {s : State} {c : Fin 2} {k : String} {v : Nat} :
    CFrame s (set_indicator s c k v) :=
  ⟨rfl, le_refl _, fun _ hq => Or.inl hq⟩

theorem stop_blink_cframe {s : State} {c : Fin 2} : CFrame s (stop_blink s c).1 := by
  simp only [stop_blink]
  split
  · exact ⟨rfl, le_refl _, fun q hq => Or.inl (List.mem_of_mem_filter hq)⟩
  · exact CFrame_refl

theorem begin_timer_cframe {s : State} {c : Fin 2} {id : String} {p : Nat} :
    CFrame s (begin_timer s c id p).1 := by
  refine ⟨rfl, Nat.le_succ _, ?_⟩
  intro q hq
  rcases List.mem_cons.mp hq with h1 | h1
  · rw [h1]
    exact Or.inr (le_refl _)
  · exact Or.inl h1

theorem update_loop_cframe {e : Engine} {c : Fin 2} {s : State} :
    CFrame s (update_loop_inout_lights e c s).1 := by
  have hrec : ∀ (t : State) (f : Fin 2 → Nat),
      CFrame t { t with current_loop_modifier := f } :=
    fun t f => ⟨rfl, le_refl _, fun q hq => Or.inl hq⟩
  simp only [update_loop_inout_lights]
  split
  · exact CFrame_trans stop_blink_cframe (hrec _ _)
  · split_ifs <;> first
      | exact CFrame_refl
      | exact CFrame_trans stop_blink_cframe (CFrame_trans begin_timer_cframe (hrec _ _))

theorem set_loop_adjust_cframe {e : Engine} {d st : Nat} {s : State} :
    CFrame s (set_loop_adjust_state e d st s).1 := by
  have h1 : CFrame s { s with deck_loop_adjust :=
      (Function.update s.deck_loop_adjust d (some st)) } :=
    ⟨rfl, le_refl _, fun q hq => Or.inl hq⟩
  simp only [set_loop_adjust_state]
  split
  · exact CFrame_trans h1 update_loop_cframe
  · exact h1

theorem set_loop_enabled_cframe {e : Engine} {v : Nat} {g : String} {s : State} :
    CFrame s (set_loop_enabled e v g s).1 := by
  simp only [set_loop_enabled]
  split
  · exact CFrame_trans set_loop_adjust_cframe set_indicator_cframe
  · exact set_loop_adjust_cframe

theorem fire_output_cframe {e : Engine} {k g : String} {v : Nat} {s : State} :
    CFrame s (fire_output e k g v s).1 := by
  simp only [fire_output]
  split
  · exact set_loop_enabled_cframe
  · split
    · exact set_indicator_cframe
    · exact CFrame_refl

theorem update_sampler_cframe {v : Nat} {g : String} {s : State} :
    CFrame s (update_sampler v g s) := by
  simp only [update_sampler]
  split <;> split <;> first
    | exact CFrame_refl
    | exact set_indicator_cframe
    | exact CFrame_trans set_indicator_cframe set_indicator_cframe

theorem connect_step_cprops {e : Engine} {c : Fin 2} {d : Nat} {s : State}
    {a : String × Bool} :
    (∀ p ∈ (connect_step e c d s a).1.connections c,
        p ∈ s.connections c ∨ p.2.1 = deck_to_group d) ∧
    s.next_handle ≤ (connect_step e c d s a).1.next_handle ∧
    (∀ q ∈ (connect_step e c d s a).1.active_timers,
        q ∈ s.active_timers ∨ s.next_handle ≤ q.2) := by
  have hcf : CFrame { s with connections := (Function.update s.connections c
      (setKey (s.connections c) a.1 (deck_to_group d, a.1))) }
      (connect_step e c d s a).1 := by
    simp only [connect_step]
    split
    · exact fire_output_cframe
    · exact CFrame_refl
  refine ⟨?_, hcf.nh, ?_⟩
  · intro p hp
    rw [congrFun hcf.conns c] at hp
    dsimp only at hp
    rw [Function.update_same] at hp
    rcases mem_setKey hp with h1 | h1
    · rw [h1]
      exact Or.inr rfl
    · exact Or.inl h1
  · intro q hq
    rcases hcf.act q hq with h1 | h1
    · exact Or.inl h1
    · exact Or.inr h1

theorem sampler_step_cprops {e : Engine} {c : Fin 2} {s : State} {g : String} :
    (∀ p ∈ (sampler_step e c s g).1.connections c,
        p ∈ s.connections c ∨ p.2.1 = g) ∧
    s.next_handle ≤ (sampler_step e c s g).1.next_handle ∧
    (∀ q ∈ (sampler_step e c s g).1.active_timers,
        q ∈ s.active_timers ∨ s.next_handle ≤ q.2) := by
  have hcf : CFrame { s with connections := (Function.update s.connections c
      (setKey (s.connections c) (g ++ "_light") (g, "track_loaded"))) }
      (sampler_step e c s g).1 := by
    simp only [sampler_step]
    exact update_sampler_cframe
  refine ⟨?_, hcf.nh, ?_⟩
  · intro p hp
    rw [congrFun hcf.conns c] at hp
    dsimp only at hp
    rw [Function.update_same] at hp
    rcases mem_setKey hp with h1 | h1
    · rw [h1]
      exact Or.inr rfl
    · exact Or.inl h1
  · intro q hq
    rcases hcf.act q hq with h1 | h1
    · exact Or.inl h1
    · exact Or.inr h1

theorem connect_fold_cprops {e : Engine} {c : Fin 2} {d : Nat} :
    ∀ (l : List (String × Bool)) (s : State),
      (∀ p ∈ (foldSteps (connect_step e c d) s l).1.connections c,
          p ∈ s.connections c ∨ p.2.1 = deck_to_group d) ∧
      s.next_handle ≤ (foldSteps (connect_step e c d) s l).1.next_handle ∧
      (∀ q ∈ (foldSteps (connect_step e c d) s l).1.active_timers,
          q ∈ s.active_timers ∨ s.next_handle ≤ q.2) := by
  intro l
  induction l with
  | nil =>
      intro s
      exact ⟨fun p hp => Or.inl hp, le_refl _, fun q hq => Or.inl hq⟩
  | cons a rest ih =>
      intro s
      obtain ⟨ic, inh, ia⟩ := ih (connect_step e c d s a).1
      obtain ⟨sc, snh, sa⟩ := connect_step_cprops (e := e) (c := c) (d := d)
        (s := s) (a := a)
      simp only [foldSteps]
      refine ⟨?_, le_trans snh inh, ?_⟩
      · intro p hp
        rcases ic p hp with h1 | h1
        · exact sc p h1
        · exact Or.inr h1
      · intro q hq
        rcases ia q hq with h1 | h1
        · exact sa q h1
        · exact Or.inr (le_trans snh h1)

theorem sampler_fold_cprops {e : Engine} {c : Fin 2} :
    ∀ (gl : List String) (s : State),
      (∀ p ∈ (foldSteps (sampler_step e c) s gl).1.connections c,
          p ∈ s.connections c ∨ p.2.1 ∈ gl) ∧
      s.next_handle ≤ (foldSteps (sampler_step e c) s gl).1.next_handle ∧
      (∀ q ∈ (foldSteps (sampler_step e c) s gl).1.active_timers,
          q ∈ s.active_timers ∨ s.next_handle ≤ q.2) := by
  intro gl
  induction gl with
  | nil =>
      intro s
      exact ⟨fun p hp => Or.inl hp, le_refl _, fun q hq => Or.inl hq⟩
  | cons g rest ih =>
      intro s
      obtain ⟨ic, inh, ia⟩ := ih (sampler_step e c s g).1
      obtain ⟨sc, snh, sa⟩ := sampler_step_cprops (e := e) (c := c) (s := s) (g := g)
      simp only [foldSteps]
      refine ⟨?_, le_trans snh inh, ?_⟩
      · intro p hp
        rcases ic p hp with h1 | h1
        · rcases sc p h1 with h2 | h2
          · exact Or.inl h2
          · exact Or.inr (by rw [h2]; exact List.mem_cons_self g rest)
        · exact Or.inr (List.mem_cons_of_mem g h1)
      · intro q hq
        rcases ia q hq with h1 | h1
        · exact sa q h1
        · exact Or.inr (le_trans snh h1)

theorem connect_channel_cprops {e : Engine} {c : Fin 2} {s : State} :
    (∀ p ∈ (connect_channel e c s).1.connections c,
        p ∈ s.connections c ∨ p.2.1 = deck_to_group (channel_to_deck s c)
          ∨ p.2.1 ∈ sampler_groups (channel_to_deck s c)) ∧
    s.next_handle ≤ (connect_channel e c s).1.next_handle ∧
    (∀ q ∈ (connect_channel e c s).1.active_timers,
        q ∈ s.active_timers ∨ s.next_handle ≤ q.2) := by
  obtain ⟨fc, fnh, fa⟩ := connect_fold_cprops (e := e) (c := c)
    (d := channel_to_deck s c) output_control_to_function s
  obtain ⟨gc, gnh, ga⟩ := sampler_fold_cprops (e := e) (c := c)
    (sampler_groups (channel_to_deck s c))
    (foldSteps (connect_step e c (channel_to_deck s c)) s output_control_to_function).1
  have htail : CFrame
      (foldSteps (sampler_step e c)
        (foldSteps (connect_step e c (channel_to_deck s c)) s
          output_control_to_function).1
        (sampler_groups (channel_to_deck s c))).1
      (connect_channel e c s).1 := by
    simp only [connect_channel, update_deck_channel_indicator, update_fx_light]
    exact CFrame_trans set_indicator_cframe set_indicator_cframe
  refine ⟨?_, le_trans fnh (le_trans gnh htail.nh), ?_⟩
  · intro p hp
    rw [congrFun htail.conns c] at hp
    rcases gc p hp with h1 | h1
    · rcases fc p h1 with h2 | h2
      · exact Or.inl h2
      · exact Or.inr (Or.inl h2)
    · exact Or.inr (Or.inr h1)
  · intro q hq
    rcases htail.act q hq with h1 | h1
    · rcases ga q h1 with h2 | h2
      · exact fa q h2
      · exact Or.inr (le_trans fnh h2)
    · exact Or.inr (le_trans fnh (le_trans gnh h1))

theorem reach_true_of_reach4 {s : State}
    (h : ReachP (fun e => e.num_decks = 4) s) : ReachP (fun _ => True) s := by
  induction h with
  | init => exact ReachP.init
  | gateway e c _ _ ih => exact ReachP.gateway e c trivial ih
  | shift_edge e c pressed now _ _ ih => exact ReachP.shift_edge e c pressed now trivial ih
  | lin e c v _ _ ih => exact ReachP.lin e c v trivial ih
  | lout e c v _ _ ih => exact ReachP.lout e c v trivial ih
  | loop_cb e v g _ _ ih => exact ReachP.loop_cb e v g trivial ih
  | relight e c _ _ ih => exact ReachP.relight e c trivial ih
  | beatjump e c p _ _ ih => exact ReachP.beatjump e c p trivial ih
  | conn_ch e c _ _ ih => exact ReachP.conn_ch e c trivial ih
  | disc_ch c _ ih => exact ReachP.disc_ch c ih

/-- The intermediate state of `toggle_deck_channel` on a moving rebind: the
channel fully disconnected and the binding-table entry rewritten to the next
deck, before `connect_channel` runs. -/
def rebind_mid (e : Engine) (c : Fin 2) (s : State) : State :=
  { (disconnect_channel c s).1 with channel_mapping :=
      (Function.update (disconnect_channel c s).1.channel_mapping c
        (next_deck e.num_decks (channel_to_deck s c))) }

theorem rebind_moves {e : Engine} {c : Fin 2} {s : State} (hi : Inv1 s)
    (he : e.num_decks = 4) :
    (channel_to_deck s c == next_deck e.num_decks (channel_to_deck s c)) = false := by
  obtain ⟨h0, h1, h2, h3⟩ := hi
  rw [he]
  rcases fin2_cases c with hc | hc <;> subst hc <;>
    · simp only [channel_to_deck, next_deck, beq_eq_false_iff_ne, ne_eq]
      omega

theorem toggle_pair {e : Engine} {c : Fin 2} {s : State}
    (hne : (channel_to_deck s c == next_deck e.num_decks (channel_to_deck s c)) = false) :
    toggle_deck_channel e c s =
      ((connect_channel e c (rebind_mid e c s)).1,
       (disconnect_channel c s).2
         ++ [Ev.setMap c (next_deck e.num_decks (channel_to_deck s c))]
         ++ (connect_channel e c (rebind_mid e c s)).2) := by
  simp only [toggle_deck_channel, rebind_mid, hne, Bool.false_eq_true, if_false]

/-- C3: during a rebind of a channel from a reachable state (against 4-deck
engines), the emitted trace is exactly the disconnect trace, then the single
binding-table update, then the connect trace; every disconnect event is a
teardown (timer stop, observer release, soft-takeover reset), at the moment
the binding entry is rewritten the channel has no subscriptions and no
timers left, every connect event is a setup event, and afterwards every
subscription of the channel observes the new deck (or its sampler row) and
every timer of the channel was armed with a handle fresher than anything the
old binding ever held. -/
theorem C3_rebind_teardown_before_setup {e : Engine} {c : Fin 2} {s : State}
    (hr : ReachP (fun en => en.num_decks = 4) s) (he : e.num_decks = 4) :
    ((toggle_deck_channel e c s).2 =
        (disconnect_channel c s).2
          ++ [Ev.setMap c (next_deck e.num_decks (channel_to_deck s c))]
          ++ (connect_channel e c (rebind_mid e c s)).2) ∧
    (∀ ev ∈ (disconnect_channel c s).2, IsTeardownEv ev = true) ∧
    ((rebind_mid e c s).connections c = [] ∧
      (rebind_mid e c s).active_timers.filter (fun q => q.1 == c) = [] ∧
      chTimer (rebind_mid e c s) c = none) ∧
    (∀ ev ∈ (connect_channel e c (rebind_mid e c s)).2, IsSetupEv ev = true) ∧
    (∀ p ∈ (toggle_deck_channel e c s).1.connections c,
        p.2.1 = deck_to_group (next_deck e.num_decks (channel_to_deck s c)) ∨
        p.2.1 ∈ sampler_groups (next_deck e.num_decks (channel_to_deck s c))) ∧
    (∀ q ∈ (toggle_deck_channel e c s).1.active_timers,
        q.1 = c → s.next_handle ≤ q.2) := by
  have hi := reach4_inv1 hr
  have ht := reach_TInv (reach_true_of_reach4 hr)
  obtain ⟨hti, hct, hcn, hat, hnh⟩ := TInv_disconnect (c := c) ht
  have hne := rebind_moves (e := e) (c := c) hi he
  have hpair := toggle_pair (s := s) hne
  have hmidc : (rebind_mid e c s).connections c = [] := hcn
  have hmida : (rebind_mid e c s).active_timers.filter (fun q => q.1 == c) = [] := hat
  have hmidt : chTimer (rebind_mid e c s) c = none := hct
  have hnd4 : next_deck e.num_decks (channel_to_deck s c) < 4 := by
    rw [he]
    exact Nat.mod_lt _ (by omega)
  have hmap2 : channel_to_deck (rebind_mid e c s) c =
      next_deck e.num_decks (channel_to_deck s c) := by
    simp only [channel_to_deck, rebind_mid, Function.update_same]
  have hcol2 : c = 1 → (rebind_mid e c s).channel_mapping 0 ≠
      (rebind_mid e c s).channel_mapping 1 := by
    intro hc1
    subst hc1
    simp only [rebind_mid, Function.update_same]
    rw [Function.update_noteq (by decide)]
    rw [congrFun disconnect_channel_frame.map 0]
    obtain ⟨h0, h1, h2, h3⟩ := hi
    rw [he]
    simp only [channel_to_deck, next_deck]
    omega
  have hsetup : ∀ ev ∈ (connect_channel e c (rebind_mid e c s)).2,
      IsSetupEv ev = true := by
    refine connect_channel_trace_setup ?_ hcol2 hmidt
    rw [hmap2]
    exact hnd4
  refine ⟨congrArg Prod.snd hpair, disconnect_trace_teardown,
    ⟨hmidc, hmida, hmidt⟩, hsetup, ?_, ?_⟩
  · intro p hp
    rw [congrArg Prod.fst hpair] at hp
    obtain ⟨cc, _, _⟩ := connect_channel_cprops (e := e) (c := c) (s := rebind_mid e c s)
    rcases cc p hp with h2 | h2
    · rw [hmidc] at h2
      exact absurd h2 (List.not_mem_nil p)
    · rw [hmap2] at h2
      exact h2
  · intro q hq hq1
    rw [congrArg Prod.fst hpair] at hq
    obtain ⟨_, _, ca⟩ := connect_channel_cprops (e := e) (c := c) (s := rebind_mid e c s)
    rcases ca q hq with h2 | h2
    · exfalso
      have hmem : q ∈ (disconnect_channel c s).1.active_timers.filter
          (fun r => r.1 == c) := by
        refine List.mem_filter.mpr ⟨h2, ?_⟩
        simp [hq1]
      rw [hat] at hmem
      exact absurd hmem (List.not_mem_nil q)
    · have h3 : (disconnect_channel c s).1.next_handle ≤ q.2 := h2
      rw [hnh] at h3
      exact h3

/-- Witness for C3 at the initial state against a concrete 4-deck engine:
channel 0 rebinds from deck 0 to deck 2 and the rebind trace splits as
stated, with every post-rebind timer of the channel fresh. -/
theorem C3_rebind_teardown_before_setup_witness :
    ((toggle_deck_channel engine0 0 init_state).2 =
        (disconnect_channel 0 init_state).2
          ++ [Ev.setMap 0 (next_deck engine0.num_decks (channel_to_deck init_state 0))]
          ++ (connect_channel engine0 0 (rebind_mid engine0 0 init_state)).2) ∧
    (∀ q ∈ (toggle_deck_channel engine0 0 init_state).1.active_timers,
        q.1 = 0 → init_state.next_handle ≤ q.2) :=
  ⟨(C3_rebind_teardown_before_setup ReachP.init rfl).1,
   (C3_rebind_teardown_before_setup ReachP.init rfl).2.2.2.2.2⟩

theorem connect_step_conns {e : Engine} {c : Fin 2} {d : Nat} {s : State}
    {a : String × Bool} :
    (connect_step e c d s a).1.connections c =
      setKey (s.connections c) a.1 (deck_to_group d, a.1) := by
  have hcf : CFrame { s with connections := (Function.update s.connections c
      (setKey (s.connections c) a.1 (deck_to_group d, a.1))) }
      (connect_step e c d s a).1 := by
    simp only [connect_step]
    split
    · exact fire_output_cframe
    · exact CFrame_refl
  rw [congrFun hcf.conns c]
  dsimp only
  rw [Function.update_same]

theorem sampler_step_conns {e : Engine} {c : Fin 2} {s : State} {g : String} :
    (sampler_step e c s g).1.connections c =
      setKey (s.connections c) (g ++ "_light") (g, "track_loaded") := by
  have hcf : CFrame { s with connections := (Function.update s.connections c
      (setKey (s.connections c) (g ++ "_light") (g, "track_loaded"))) }
      (sampler_step e c s g).1 := by
    simp only [sampler_step]
    exact update_sampler_cframe
  rw [congrFun hcf.conns c]
  dsimp only
  rw [Function.update_same]

theorem connect_fold_lookup {e : Engine} {c : Fin 2} {d : Nat} {k : String} :
    ∀ (l : List (String × Bool)) (s : State),
      ((∃ b, (k, b) ∈ l) ∨
        lookupKey (s.connections c) k = some (deck_to_group d, k)) →
      lookupKey ((foldSteps (connect_step e c d) s l).1.connections c) k =
        some (deck_to_group d, k) := by
  intro l
  induction l with
  | nil =>
      intro s h
      rcases h with ⟨b, hb⟩ | h
      · exact absurd hb (List.not_mem_nil _)
      · exact h
  | cons a rest ih =>
      intro s h
      simp only [foldSteps]
      by_cases hk : k = a.1
      · refine ih _ (Or.inr ?_)
        rw [connect_step_conns, hk]
        exact lookup_setKey_same
      · refine ih _ ?_
        rcases h with ⟨b, hb⟩ | h
        · rcases List.mem_cons.mp hb with h1 | h1
          · exact absurd (congrArg Prod.fst h1) hk
          · exact Or.inl ⟨b, h1⟩
        · refine Or.inr ?_
          rw [connect_step_conns, lookup_setKey_ne hk]
          exact h

theorem sampler_fold_preserve {e : Engine} {c : Fin 2} {k : String}
    {v : Option (String × String)} :
    ∀ (gl : List String) (s : State),
      (∀ g ∈ gl, ¬(g ++ "_light" = k)) →
      lookupKey (s.connections c) k = v →
      lookupKey ((foldSteps (sampler_step e c) s gl).1.connections c) k = v := by
  intro gl
  induction gl with
  | nil => intro s _ h; exact h
  | cons g rest ih =>
      intro s hg h
      simp only [foldSteps]
      refine ih _ (fun g2 hg2 => hg g2 (List.mem_cons_of_mem g hg2)) ?_
      rw [sampler_step_conns, lookup_setKey_ne ?_]
      · exact h
      · exact fun hh => hg g (List.mem_cons_self g rest) hh.symm

set_option maxRecDepth 4000 in
theorem sampler_key_ne :
    ∀ d : Nat, d < 4 → ∀ g ∈ sampler_groups d, ∀ kb ∈ output_control_to_function,
      ¬(g ++ "_light" = kb.1) := by
  intro d hd
  interval_cases d <;> decide

theorem connect_fold_trig {e : Engine} {c : Fin 2} {d : Nat} {k : String} :
    ∀ (l : List (String × Bool)) (s : State), (k, true) ∈ l →
      Ev.trig c k (deck_to_group d) (e.val (deck_to_group d) k)
        ∈ (foldSteps (connect_step e c d) s l).2 := by
  intro l
  induction l with
  | nil => intro s h; exact absurd h (List.not_mem_nil _)
  | cons a rest ih =>
      intro s h
      simp only [foldSteps]
      rcases List.mem_cons.mp h with h1 | h1
      · have ha : a = (k, true) := h1.symm
        subst ha
        refine List.mem_append.mpr (Or.inl ?_)
        simp only [connect_step, if_true]
        exact List.mem_append.mpr (Or.inl (by simp))
      · exact List.mem_append.mpr (Or.inr (ih _ h1))

/-- C2 (amended): after a rebind of a channel from a reachable state, every
control of the fixed observable-output table has a fresh observer registered
against the newly bound deck, and every control declared fire-immediately has
had its observer invoked synchronously with the new deck's current value; but
`track_loaded` is declared with `trig = false` in the table, so the spec's
further promise that the entire indicator surface is resynchronized does not
hold for it. -/
theorem C2_rebind_resync_amended {e : Engine} {c : Fin 2} {s : State}
    (hr : ReachP (fun en => en.num_decks = 4) s) (he : e.num_decks = 4) :
    (∀ kb ∈ output_control_to_function,
        lookupKey ((toggle_deck_channel e c s).1.connections c) kb.1 =
          some (deck_to_group (next_deck e.num_decks (channel_to_deck s c)), kb.1)) ∧
    (∀ kb ∈ output_control_to_function, kb.2 = true →
        Ev.trig c kb.1 (deck_to_group (next_deck e.num_decks (channel_to_deck s c)))
          (e.val (deck_to_group (next_deck e.num_decks (channel_to_deck s c))) kb.1)
          ∈ (toggle_deck_channel e c s).2) ∧
    ("track_loaded", false) ∈ output_control_to_function := by
  have hi := reach4_inv1 hr
  have hne := rebind_moves (e := e) (c := c) hi he
  have hpair := toggle_pair (s := s) hne
  have hnd4 : next_deck e.num_decks (channel_to_deck s c) < 4 := by
    rw [he]
    exact Nat.mod_lt _ (by omega)
  have hmap2 : channel_to_deck (rebind_mid e c s) c =
      next_deck e.num_decks (channel_to_deck s c) := by
    simp only [channel_to_deck, rebind_mid, Function.update_same]
  have htail : CFrame
      (foldSteps (sampler_step e c)
        (foldSteps (connect_step e c (channel_to_deck (rebind_mid e c s) c))
          (rebind_mid e c s) output_control_to_function).1
        (sampler_groups (channel_to_deck (rebind_mid e c s) c))).1
      (connect_channel e c (rebind_mid e c s)).1 := by
    simp only [connect_channel, update_deck_channel_indicator, update_fx_light]
    exact CFrame_trans set_indicator_cframe set_indicator_cframe
  refine ⟨?_, ?_, by decide⟩
  · intro kb hkb
    rw [congrArg Prod.fst hpair, congrFun htail.conns c, ← hmap2]
    refine sampler_fold_preserve
      (sampler_groups (channel_to_deck (rebind_mid e c s) c)) _ ?_ ?_
    · intro g hg hh
      rw [hmap2] at hg
      exact sampler_key_ne _ hnd4 g hg kb hkb hh
    · exact connect_fold_lookup output_control_to_function _
        (Or.inl ⟨kb.2, by simpa using hkb⟩)
  · intro kb hkb htr
    obtain ⟨k1, k2⟩ := kb
    dsimp only at htr
    subst htr
    rw [congrArg Prod.snd hpair]
    refine List.mem_append.mpr (Or.inr ?_)
    simp only [connect_channel]
    refine List.mem_append.mpr (Or.inl ?_)
    rw [← hmap2]
    exact connect_fold_trig output_control_to_function _ hkb

/-- Witness for the amended C2 at the initial state and a concrete 4-deck
engine: channel 0's rebind registers a fresh observer for every table entry
against the new deck, and the table indeed declares `track_loaded` as not
fire-immediately. -/
theorem C2_rebind_resync_amended_witness :
    (∀ kb ∈ output_control_to_function,
        lookupKey ((toggle_deck_channel engine0 0 init_state).1.connections 0) kb.1 =
          some (deck_to_group (next_deck engine0.num_decks
            (channel_to_deck init_state 0)), kb.1)) ∧
    ("track_loaded", false) ∈ output_control_to_function :=
  ⟨(C2_rebind_resync_amended (e := engine0) (c := 0) ReachP.init rfl).1,
   (C2_rebind_resync_amended (e := engine0) (c := 0) ReachP.init rfl).2.2⟩

/-- The spec's resynchronization guarantee, stated as written: after the
rebind, the channel's indicator for every control of the observable-output
table equals the engine's current value of that control on the channel's
group. -/
def surface_reflects (e : Engine) (s : State) (c : Fin 2) : Prop :=
  ∀ kb ∈ output_control_to_function,
    s.indicators c kb.1 = some (e.val (channel_to_group s c) kb.1)

/-- `s'` shows the same indicator as `s` for key `k` on every channel. -/
def IPres (k : String) (s s' : State) : Prop :=
  ∀ c : Fin 2, s'.indicators c k = s.indicators c k

theorem IPres_refl {k : String} {s : State} : IPres k s s := fun _ => rfl

theorem IPres_trans {k : String} {a b c : State} (h1 : IPres k a b)
    (h2 : IPres k b c) : IPres k a c :=
  fun ch => (h2 ch).trans (h1 ch)

theorem set_indicator_ipres {k key : String} {c : Fin 2} {v : Nat} {s : State}
    (h : ¬(key = k)) : IPres k s (set_indicator s c key v) := by
  intro c2
  simp only [set_indicator]
  by_cases hc : c2 = c
  · subst hc
    rw [Function.update_same, Function.update_noteq (fun hh => h hh.symm)]
  · rw [Function.update_noteq hc]

theorem stop_blink_ipres {k : String} {s : State} {c : Fin 2} :
    IPres k s (stop_blink s c).1 := by
  simp only [stop_blink]
  split <;> exact fun _ => rfl

theorem update_loop_ipres {k : String} {e : Engine} {c : Fin 2} {s : State} :
    IPres k s (update_loop_inout_lights e c s).1 := by
  have hrec : ∀ (t : State) (f : Fin 2 → Nat),
      IPres k t { t with current_loop_modifier := f } := fun _ _ _ => rfl
  have hbt : ∀ (t : State) (c2 : Fin 2) (id : String) (p : Nat),
      IPres k t (begin_timer t c2 id p).1 := fun _ _ _ _ _ => rfl
  simp only [update_loop_inout_lights]
  split
  · exact IPres_trans stop_blink_ipres (hrec _ _)
  · split_ifs <;> first
      | exact IPres_refl
      | exact IPres_trans stop_blink_ipres (IPres_trans (hbt _ _ _ _) (hrec _ _))

theorem set_loop_adjust_ipres {k : String} {e : Engine} {d st : Nat} {s : State} :
    IPres k s (set_loop_adjust_state e d st s).1 := by
  have h1 : IPres k s { s with deck_loop_adjust :=
      (Function.update s.deck_loop_adjust d (some st)) } := fun _ => rfl
  simp only [set_loop_adjust_state]
  split
  · exact IPres_trans h1 update_loop_ipres
  · exact h1

theorem set_loop_enabled_ipres {k : String} {e : Engine} {v : Nat} {g : String}
    {s : State} (h : ¬("loop_enabled" = k)) :
    IPres k s (set_loop_enabled e v g s).1 := by
  simp only [set_loop_enabled]
  split
  · exact IPres_trans set_loop_adjust_ipres (set_indicator_ipres h)
  · exact set_loop_adjust_ipres

theorem fire_output_ipres {k key g : String} {e : Engine} {v : Nat} {s : State}
    (h : ¬(key = k)) : IPres k s (fire_output e key g v s).1 := by
  simp only [fire_output]
  split
  · refine set_loop_enabled_ipres ?_
    intro hh
    rename_i hkey
    exact h ((eq_of_beq hkey).trans hh)
  · split
    · exact set_indicator_ipres h
    · exact IPres_refl

theorem connect_step_ipres {k : String} {e : Engine} {c : Fin 2} {d : Nat}
    {s : State} {a : String × Bool} (h : a.1 = k → a.2 = false) :
    IPres k s (connect_step e c d s a).1 := by
  have hs1 : IPres k s { s with connections := (Function.update s.connections c
      (setKey (s.connections c) a.1 (deck_to_group d, a.1))) } := fun _ => rfl
  simp only [connect_step]
  split
  · rename_i hcond
    refine IPres_trans hs1 (fire_output_ipres ?_)
    intro hh
    rw [h hh] at hcond
    exact Bool.noConfusion hcond
  · exact hs1

theorem connect_fold_ipres {k : String} {e : Engine} {c : Fin 2} {d : Nat} :
    ∀ (l : List (String × Bool)) (s : State),
      (∀ a ∈ l, a.1 = k → a.2 = false) →
      IPres k s (foldSteps (connect_step e c d) s l).1 := by
  intro l
  induction l with
  | nil => intro s _; exact IPres_refl
  | cons a rest ih =>
      intro s hl
      simp only [foldSteps]
      refine IPres_trans (connect_step_ipres (e := e) (c := c) (d := d)
        (hl a (List.mem_cons_self a rest))) ?_
      exact ih _ (fun b hb => hl b (List.mem_cons_of_mem a hb))

theorem update_sampler_ipres {k g : String} {v : Nat} {s : State}
    (h : ¬(g ++ "_light" = k)) : IPres k s (update_sampler v g s) := by
  simp only [update_sampler]
  split <;> split <;> first
    | exact IPres_refl
    | exact set_indicator_ipres h
    | exact IPres_trans (set_indicator_ipres h) (set_indicator_ipres h)

theorem sampler_step_ipres {k : String} {e : Engine} {c : Fin 2} {s : State}
    {g : String} (h : ¬(g ++ "_light" = k)) :
    IPres k s (sampler_step e c s g).1 := by
  have hs1 : IPres k s { s with connections := (Function.update s.connections c
      (setKey (s.connections c) (g ++ "_light") (g, "track_loaded"))) } :=
    fun _ => rfl
  simp only [sampler_step]
  exact IPres_trans hs1 (update_sampler_ipres h)

theorem sampler_fold_ipres {k : String} {e : Engine} {c : Fin 2} :
    ∀ (gl : List String) (s : State),
      (∀ g ∈ gl, ¬(g ++ "_light" = k)) →
      IPres k s (foldSteps (sampler_step e c) s gl).1 := by
  intro gl
  induction gl with
  | nil => intro s _; exact IPres_refl
  | cons g rest ih =>
      intro s hl
      simp only [foldSteps]
      refine IPres_trans (sampler_step_ipres (e := e) (c := c)
        (hl g (List.mem_cons_self g rest))) ?_
      exact ih _ (fun b hb => hl b (List.mem_cons_of_mem g hb))

theorem connect_channel_ipres {k : String} {e : Engine} {c : Fin 2} {s : State}
    (hc2f : ∀ a ∈ output_control_to_function, a.1 = k → a.2 = false)
    (hsamp : ∀ g ∈ sampler_groups (channel_to_deck s c), ¬(g ++ "_light" = k))
    (hdci : ¬("deck_channel_indicator" = k)) (hbfx : ¬("beat_fx" = k)) :
    IPres k s (connect_channel e c s).1 := by
  simp only [connect_channel, update_deck_channel_indicator, update_fx_light]
  refine IPres_trans (connect_fold_ipres (e := e) (c := c) (d := channel_to_deck s c)
    output_control_to_function s hc2f) ?_
  refine IPres_trans (sampler_fold_ipres (e := e) (c := c) _ _ hsamp) ?_
  exact IPres_trans (set_indicator_ipres hdci) (set_indicator_ipres hbfx)

theorem disconnect_ipres {k : String} {c : Fin 2} {s : State} :
    IPres k s (disconnect_channel c s).1 := fun _ => rfl

theorem rebind_mid_ipres {k : String} {e : Engine} {c : Fin 2} {s : State} :
    IPres k s (rebind_mid e c s) := fun _ => rfl

theorem C2_rebind_resync_counterexample :
    ¬ surface_reflects engine1 (toggle_deck_channel engine1 0 init_state).1 0 := by
  intro h
  have h2 := h ("track_loaded", false) (by decide)
  have hne : (channel_to_deck init_state 0 ==
      next_deck engine1.num_decks (channel_to_deck init_state 0)) = false := by decide
  have hcd : channel_to_deck (rebind_mid engine1 0 init_state) 0 = 2 := by decide
  have hp : IPres "track_loaded" init_state (toggle_deck_channel engine1 0 init_state).1 := by
    rw [congrArg Prod.fst (toggle_pair hne)]
    refine IPres_trans rebind_mid_ipres (connect_channel_ipres ?_ ?_ ?_ ?_)
    · decide
    · rw [hcd]
      decide
    · decide
    · decide
  have h3 : (toggle_deck_channel engine1 0 init_state).1.indicators 0 "track_loaded" =
      none := hp 0
  rw [h3] at h2
  exact Option.noConfusion h2

end PioneerDDJ400